import Mathlib

/-!
# mymuduo: Channel event dispatch and the TcpConnection state machine

A shallow embedding of `Channel.cc` and `TcpConnection.cc`.

* Member functions become pure functions on an explicit state.
* Every result of a system call (`::write`, `Buffer::readFd`, `getsockopt`) is a
  parameter of the operation that performs the call.
* Everything an operation does to the outside (system calls, calls into the
  loop, user callbacks invoked inline, `LOG_ERROR` lines) is appended, in
  program order, to a trace; tasks handed to the loop are appended to the
  loop's queue.  `LOG_INFO` lines are not modelled.
* `size_t` arithmetic is arithmetic modulo `2 ^ 64`.
* A queued `sendInLoop` is bound to the address and the length of the caller's
  bytes, not to a copy; what that memory holds when the loop runs the entry is
  a parameter of the operation that runs it.
-/

namespace mymuduo

/-! ## Channel -/

/-- Readiness bits of `<sys/epoll.h>` (Linux). -/
def EPOLLIN : Nat := 0x001
/-- Urgent data readable. -/
def EPOLLPRI : Nat := 0x002
/-- Writable. -/
def EPOLLOUT : Nat := 0x004
/-- Error condition. -/
def EPOLLERR : Nat := 0x008
/-- Hang-up. -/
def EPOLLHUP : Nat := 0x010

/-- `Channel::kNoneEvent` (Channel.cc:7). -/
def kNoneEvent : Nat := 0
/-- `Channel::kReadEvent` (Channel.cc:8). -/
def kReadEvent : Nat := EPOLLIN ||| EPOLLPRI
/-- `Channel::kWriteEvent` (Channel.cc:9). -/
def kWriteEvent : Nat := EPOLLOUT

/-- The argument of the read callback; its content is never inspected. -/
abbrev Timestamp := Nat

/-- What `tie_.lock()` can find: a `std::weak_ptr` that was never assigned (or
assigned from a null pointer), one whose owner is alive, one whose owner has
been destroyed. -/
inductive WeakPtr where
  | empty
  | live
  | expired
  deriving DecidableEq, Repr

/-- Whether `lock()` yields a non-null `shared_ptr`. -/
def WeakPtr.lock : WeakPtr → Bool
  | .live => true
  | _ => false

/-- The owner of a weak pointer is destroyed. -/
def WeakPtr.expire : WeakPtr → WeakPtr
  | .live => .expired
  | p => p

/-- The data members of `Channel` (constructor, Channel.cc:12-19), the four
callback members apart: those are kept in `ChannelCallbacks`, because they are
functions on the state of the whole program. `events_` and `revents_` are
non-negative `int` bit masks. -/
structure Channel where
  events_ : Nat := 0
  revents_ : Nat := 0
  index_ : Int := -1
  tied_ : Bool := false
  tie_ : WeakPtr := .empty
  deriving DecidableEq, Repr

/-- The callback members of `Channel`: `std::function` objects, empty (`none`)
until set. A callback is a transformer of the program state `σ`. -/
structure ChannelCallbacks (σ : Type) where
  readCallback_ : Option (Timestamp → σ → σ) := none
  writeCallback_ : Option (σ → σ) := none
  closeCallback_ : Option (σ → σ) := none
  errorCallback_ : Option (σ → σ) := none

/-- `Channel::tie` (Channel.cc:26-30); `obj` tells whether the shared pointer
passed in is non-null. -/
def Channel.tie (ch : Channel) (obj : Bool) : Channel :=
  { ch with tie_ := if obj then .live else .empty, tied_ := true }

/-- The object the channel is tied to is destroyed. -/
def Channel.ownerDestroyed (ch : Channel) : Channel :=
  { ch with tie_ := ch.tie_.expire }

/-- The poller delivers readiness flags (`set_revents`). -/
def Channel.set_revents (ch : Channel) (revt : Nat) : Channel :=
  { ch with revents_ := revt }

/-- `Channel::handleEventWithGuard` (Channel.cc:63-100). -/
def Channel.handleEventWithGuard {σ : Type} (ch : Channel) (cbs : ChannelCallbacks σ)
    (receiveTime : Timestamp) (s : σ) : σ :=
  let s1 :=
    if (ch.revents_ &&& EPOLLHUP ≠ 0) ∧ ¬ (ch.revents_ &&& EPOLLIN ≠ 0) then
      match cbs.closeCallback_ with
      | some closeCallback => closeCallback s
      | none => s
    else s
  let s2 :=
    if ch.revents_ &&& EPOLLERR ≠ 0 then
      match cbs.errorCallback_ with
      | some errorCallback => errorCallback s1
      | none => s1
    else s1
  let s3 :=
    if ch.revents_ &&& (EPOLLIN ||| EPOLLPRI) ≠ 0 then
      match cbs.readCallback_ with
      | some readCallback => readCallback receiveTime s2
      | none => s2
    else s2
  if ch.revents_ &&& EPOLLOUT ≠ 0 then
    match cbs.writeCallback_ with
    | some writeCallback => writeCallback s3
    | none => s3
  else s3

/-- `Channel::handleEvent` (Channel.cc:46-60). -/
def Channel.handleEvent {σ : Type} (ch : Channel) (cbs : ChannelCallbacks σ)
    (receiveTime : Timestamp) (s : σ) : σ :=
  if ch.tied_ then
    if ch.tie_.lock then
      ch.handleEventWithGuard cbs receiveTime s
    else s
  else
    ch.handleEventWithGuard cbs receiveTime s

/-! ### The dispatch rule as the specification words it -/

/-- The four kinds of callback a channel can hold. -/
inductive CallbackKind where
  | close
  | error
  | read
  | write
  deriving DecidableEq, Repr

/-- Bit positions of the readiness flags: IN 0, PRI 1, OUT 2, ERR 3, HUP 4. -/
def bitIN : Nat := 0
/-- Bit position of PRI. -/
def bitPRI : Nat := 1
/-- Bit position of OUT. -/
def bitOUT : Nat := 2
/-- Bit position of ERR. -/
def bitERR : Nat := 3
/-- Bit position of HUP. -/
def bitHUP : Nat := 4

/-- The callback of kind `k` when the condition holds, nothing otherwise. -/
def selectIf (cond : Bool) (k : CallbackKind) : List CallbackKind :=
  if cond then [k] else []

/-- The callbacks the dispatch rule selects for given readiness flags, in the
order of the rule: close iff HUP and not IN, error iff ERR, read iff IN or PRI,
write iff OUT. -/
def dispatchSpec (revents : Nat) : List CallbackKind :=
  selectIf (revents.testBit bitHUP && !revents.testBit bitIN) CallbackKind.close
  ++ selectIf (revents.testBit bitERR) CallbackKind.error
  ++ selectIf (revents.testBit bitIN || revents.testBit bitPRI) CallbackKind.read
  ++ selectIf (revents.testBit bitOUT) CallbackKind.write

/-- Invoking the callback of one kind: the registered function, or nothing at
all when none is registered. -/
def ChannelCallbacks.invoke {σ : Type} (cbs : ChannelCallbacks σ) (receiveTime : Timestamp)
    (k : CallbackKind) (s : σ) : σ :=
  match k with
  | .close => match cbs.closeCallback_ with
    | some f => f s
    | none => s
  | .error => match cbs.errorCallback_ with
    | some f => f s
    | none => s
  | .read => match cbs.readCallback_ with
    | some f => f receiveTime s
    | none => s
  | .write => match cbs.writeCallback_ with
    | some f => f s
    | none => s

/-- Invoking a list of callbacks one after the other. -/
def ChannelCallbacks.invokeAll {σ : Type} (cbs : ChannelCallbacks σ) (receiveTime : Timestamp)
    (ks : List CallbackKind) (s : σ) : σ :=
  ks.foldl (fun acc k => cbs.invoke receiveTime k acc) s

/-- Callbacks that do nothing but record their own invocation. -/
def recorder : ChannelCallbacks (List CallbackKind) where
  readCallback_ := some (fun _ tr => tr ++ [CallbackKind.read])
  writeCallback_ := some (fun tr => tr ++ [CallbackKind.write])
  closeCallback_ := some (fun tr => tr ++ [CallbackKind.close])
  errorCallback_ := some (fun tr => tr ++ [CallbackKind.error])

/-! ## TcpConnection -/

/-- Modelled from the spec: the connection states of `TcpConnection.h` (the
header is not among the sources): one of Connecting, Connected, Disconnecting,
Disconnected. -/
inductive StateE where
  | kConnecting
  | kConnected
  | kDisconnecting
  | kDisconnected
  deriving DecidableEq, Repr

/-- The position of a state in the life cycle
Connecting < Connected < Disconnecting < Disconnected. -/
def StateE.rank : StateE → Nat
  | .kConnecting => 0
  | .kConnected => 1
  | .kDisconnecting => 2
  | .kDisconnected => 3

/-- Modelled from the spec: the growable byte buffer (`Buffer.h` is not among
the sources), reduced to its readable span; it exposes append, advance of the
read cursor and the readable length. -/
structure Buffer where
  bytes : List Char := []
  deriving DecidableEq, Repr

/-- Modelled from the spec: `readableLength`. -/
def Buffer.readableBytes (b : Buffer) : Nat := b.bytes.length

/-- Modelled from the spec: `append(bytes)`. -/
def Buffer.append (b : Buffer) (data : List Char) : Buffer := { bytes := b.bytes ++ data }

/-- Modelled from the spec: `advanceReadCursor(n)`; advancing by the whole
readable length or more leaves the buffer empty. -/
def Buffer.retrieve (b : Buffer) (len : Nat) : Buffer := { bytes := b.bytes.drop len }

/-- What a system call hands back: its return value and, when that is
negative, `errno`. -/
structure SysResult where
  ret : Int
  errno : Int := 0
  deriving DecidableEq, Repr

/-- What `Buffer::readFd` hands back: the byte count or -1, the bytes read, and
the saved `errno`. -/
structure ReadResult where
  ret : Int
  bytes : List Char := []
  errno : Int := 0
  deriving DecidableEq, Repr

/-- What `getsockopt(SO_ERROR)` hands back: return value, `optval`, `errno`. -/
structure SockOptResult where
  ret : Int
  optval : Int := 0
  errno : Int := 0
  deriving DecidableEq, Repr

/-- The value of `EWOULDBLOCK` in `<errno.h>` (Linux). -/
def EWOULDBLOCK : Int := 11
/-- The value of `EPIPE`. -/
def EPIPE : Int := 32
/-- The value of `ECONNRESET`. -/
def ECONNRESET : Int := 104

/-- The number of values of `size_t`. -/
def SIZE_MOD : Nat := 2 ^ 64

/-- A task bound with `std::bind` and handed to the loop. The `sendInLoop`
task is bound with the address `buf.c_str()` of the caller's bytes and their
count `buf.size()` (TcpConnection.cc:204-209): the bytes are not copied, so the
task carries the count only, and the bytes are those found at that address
when the task runs. -/
inductive PendingFunctor where
  | sendInLoop (len : Nat)
  | shutdownInloop
  | writeCompleteCallback
  | highWaterMarkCallback (len : Nat)
  deriving DecidableEq, Repr

/-- The `LOG_ERROR` lines of TcpConnection.cc. -/
inductive ErrorLine where
  | giveUpWriting
  | sendInLoop
  | handleRead
  | handleWrite
  | noMoreWriting
  | handleError (err : Int)
  deriving DecidableEq, Repr

/-- What an operation does to the outside of the connection. -/
inductive Effect where
  | sysWrite (offered : List Char) (ret : Int)
  | shutdownWrite
  | updateChannel (events : Nat)
  | removeChannel
  | connectionCallback (state : StateE)
  | messageCallback (inputBuffer : List Char) (receiveTime : Timestamp)
  | closeCallback
  | writeCompleteCallback
  | highWaterMarkCallback (len : Nat)
  | logError (line : ErrorLine)
  deriving DecidableEq, Repr

/-- The data members of `TcpConnection` that its operations read or write
(constructor, TcpConnection.cc:25-56). The two optional callbacks are kept as
"is set"; `connectionCallback_`, `messageCallback_` and `closeCallback_` are
invoked without a test and are taken to be set. -/
structure TcpConnection where
  state_ : StateE := .kConnecting
  reading_ : Bool := true
  channel_ : Channel := {}
  inputBuffer_ : Buffer := {}
  outputBuffer_ : Buffer := {}
  highWaterMark_ : Nat := 64 * 1024 * 1024
  writeCompleteCallback_ : Bool := false
  highWaterMarkCallback_ : Bool := false
  deriving DecidableEq, Repr

/-- The connection together with its surroundings: the task queue of the
owning loop and the trace of effects so far. -/
structure World where
  conn : TcpConnection := {}
  pendingFunctors_ : List PendingFunctor := []
  trace : List Effect := []
  deriving DecidableEq, Repr

/-- An effect is appended to the trace. -/
def World.emit (w : World) (e : Effect) : World :=
  { w with trace := w.trace ++ [e] }

/-- The channel's interest flags are replaced. -/
def World.setEvents (w : World) (events : Nat) : World :=
  { w with conn := { w.conn with channel_ := { w.conn.channel_ with events_ := events } } }

/-- The outbound buffer is replaced. -/
def World.setOutputBuffer (w : World) (b : Buffer) : World :=
  { w with conn := { w.conn with outputBuffer_ := b } }

/-- `setState` (TcpConnection.h). -/
def setState (state : StateE) (w : World) : World :=
  { w with conn := { w.conn with state_ := state } }

/-- `LOG_ERROR`. -/
def logError (line : ErrorLine) (w : World) : World := w.emit (.logError line)

/-! ### Collaborators -/

/-- `Channel::update` (Channel.cc:34-38): the loop is told the interest set. -/
def Channel.update (w : World) : World :=
  w.emit (.updateChannel w.conn.channel_.events_)

/-- `Channel::remove` (Channel.cc:41-44). -/
def Channel.remove (w : World) : World := w.emit .removeChannel

/-- Modelled from the spec: `Channel::isWriting` of `Channel.h` (not among the
sources): writable interest is registered. -/
def Channel.isWriting (ch : Channel) : Bool := ch.events_ &&& kWriteEvent != 0

/-- Modelled from the spec: `Channel::isReading`. -/
def Channel.isReading (ch : Channel) : Bool := ch.events_ &&& kReadEvent != 0

/-- Modelled from the spec: `Channel::isNoneEvent`. -/
def Channel.isNoneEvent (ch : Channel) : Bool := ch.events_ == kNoneEvent

/-- The complement of a flag within a 32-bit mask. -/
def flagComplement (flag : Nat) : Nat := 0xFFFFFFFF ^^^ flag

/-- Modelled from the spec: `Channel::enableReading`, an interest setter
followed by a re-registration with the loop. -/
def Channel.enableReading (w : World) : World :=
  Channel.update (w.setEvents (w.conn.channel_.events_ ||| kReadEvent))

/-- Modelled from the spec: `Channel::enableWriting`. -/
def Channel.enableWriting (w : World) : World :=
  Channel.update (w.setEvents (w.conn.channel_.events_ ||| kWriteEvent))

/-- Modelled from the spec: `Channel::disableWriting`. -/
def Channel.disableWriting (w : World) : World :=
  Channel.update (w.setEvents (w.conn.channel_.events_ &&& flagComplement kWriteEvent))

/-- Modelled from the spec: `Channel::diableAll`. -/
def Channel.diableAll (w : World) : World :=
  Channel.update (w.setEvents kNoneEvent)

/-- Modelled from the spec: `EventLoop::queueInLoop` (`EventLoop.h` is not
among the sources): always enqueue. -/
def queueInLoop (f : PendingFunctor) (w : World) : World :=
  { w with pendingFunctors_ := w.pendingFunctors_ ++ [f] }

/-- Modelled from the spec: `EventLoop::runInLoop`: execute now when on the
owning thread, else enqueue. `cb` is what the task `f` does when it runs. -/
def runInLoop (isInLoopThread : Bool) (cb : World → World) (f : PendingFunctor)
    (w : World) : World :=
  if isInLoopThread then cb w else queueInLoop f w

/-- Modelled from the spec: `Socket::shutdownWrite`, the half-close. -/
def Socket.shutdownWrite (w : World) : World := w.emit .shutdownWrite

/-! ### Operations of TcpConnection -/

/-- `connectionCallback_(shared_from_this())`: the user callback is invoked
inline and observes the state of the connection. -/
def connectionCallback (w : World) : World := w.emit (.connectionCallback w.conn.state_)

/-- `closeCallback_(connPtr)`. -/
def closeCallback (w : World) : World := w.emit .closeCallback

/-- `messageCallback_(shared_from_this(), &inputBuffer_, receiveTime)`. -/
def messageCallback (receiveTime : Timestamp) (w : World) : World :=
  w.emit (.messageCallback w.conn.inputBuffer_.bytes receiveTime)

/-- `TcpConnection::shutdownInloop` (TcpConnection.cc:76-82). -/
def shutdownInloop (w : World) : World :=
  if !w.conn.channel_.isWriting then
    Socket.shutdownWrite w
  else w

/-- `TcpConnection::shutdown` (TcpConnection.cc:66-75). -/
def shutdown (isInLoopThread : Bool) (w : World) : World :=
  if w.conn.state_ = .kConnected then
    runInLoop isInLoopThread shutdownInloop .shutdownInloop (setState .kDisconnecting w)
  else w

/-- `TcpConnection::connectEstablished` (TcpConnection.cc:85-93). -/
def connectEstablished (w : World) : World :=
  let w1 := setState .kConnected w
  let w2 := { w1 with conn := { w1.conn with channel_ := w1.conn.channel_.tie true } }
  let w3 := Channel.enableReading w2
  connectionCallback w3

/-- `TcpConnection::connectDestroyed` (TcpConnection.cc:95-104). -/
def connectDestroyed (w : World) : World :=
  let w1 :=
    if w.conn.state_ = .kConnected then
      connectionCallback (Channel.diableAll (setState .kDisconnected w))
    else w
  Channel.remove w1

/-- `TcpConnection::handleClose` (TcpConnection.cc:166-175). -/
def handleClose (w : World) : World :=
  let w1 := setState .kDisconnected w
  let w2 := Channel.diableAll w1
  let w3 := connectionCallback w2
  closeCallback w3

/-- `TcpConnection::handleError` (TcpConnection.cc:177-192). -/
def handleError (so : SockOptResult) (w : World) : World :=
  let err := if so.ret < 0 then so.errno else so.optval
  logError (.handleError err) w

/-- Modelled from the spec: `Buffer::readFd`, consume-from-descriptor: on a
positive count the bytes read are appended to the buffer. -/
def Buffer.readFd (b : Buffer) (rd : ReadResult) : Buffer :=
  if rd.ret > 0 then b.append rd.bytes else b

/-- `TcpConnection::haneleRead` (TcpConnection.cc:106-127). -/
def haneleRead (rd : ReadResult) (so : SockOptResult) (receiveTime : Timestamp)
    (w : World) : World :=
  let w1 := { w with conn := { w.conn with inputBuffer_ := w.conn.inputBuffer_.readFd rd } }
  let n := rd.ret
  if n > 0 then
    messageCallback receiveTime w1
  else if n = 0 then
    handleClose w1
  else
    handleError so (logError .handleRead w1)

/-- Modelled from the spec: `Buffer::writeFd`, drain-to-descriptor: one
`::write` of the readable span. -/
def Buffer.writeFd (wr : SysResult) (w : World) : World :=
  w.emit (.sysWrite w.conn.outputBuffer_.bytes wr.ret)

/-- `TcpConnection::handleWrite` (TcpConnection.cc:129-164). -/
def handleWrite (wr : SysResult) (w : World) : World :=
  if w.conn.channel_.isWriting then
    let w1 := Buffer.writeFd wr w
    let n := wr.ret
    if n > 0 then
      let w2 := w1.setOutputBuffer (w1.conn.outputBuffer_.retrieve n.toNat)
      if w2.conn.outputBuffer_.readableBytes = 0 then
        let w3 := Channel.disableWriting w2
        let w4 := if w3.conn.writeCompleteCallback_ then queueInLoop .writeCompleteCallback w3 else w3
        if w4.conn.state_ = .kDisconnecting then
          shutdownInloop w4
        else w4
      else w2
    else
      logError .handleWrite w1
  else
    logError .noMoreWriting w

/-- The local variables of `sendInLoop`. -/
structure SendLocals where
  nwrote : Int
  remaining : Nat
  faultError : Bool
  deriving DecidableEq, Repr

/-- The direct write of `sendInLoop` (TcpConnection.cc:231-254). -/
def sendInLoop.directWrite (data : List Char) (wr : SysResult) (w : World) :
    SendLocals × World :=
  let len := data.length
  let w1 := w.emit (.sysWrite data wr.ret)
  let nwrote := wr.ret
  if nwrote ≥ 0 then
    let remaining := (((len : Int) - nwrote) % (SIZE_MOD : Int)).toNat
    let w2 :=
      if remaining = 0 ∧ w1.conn.writeCompleteCallback_ = true then
        queueInLoop .writeCompleteCallback w1
      else w1
    ({ nwrote := nwrote, remaining := remaining, faultError := false }, w2)
  else
    if wr.errno ≠ EWOULDBLOCK then
      let w2 := logError .sendInLoop w1
      if wr.errno = EPIPE ∨ wr.errno = ECONNRESET then
        ({ nwrote := 0, remaining := len, faultError := true }, w2)
      else
        ({ nwrote := 0, remaining := len, faultError := false }, w2)
    else
      ({ nwrote := 0, remaining := len, faultError := false }, w1)

/-- The buffering step of `sendInLoop` (TcpConnection.cc:262-279). -/
def sendInLoop.buffer (data : List Char) (v : SendLocals) (w : World) : World :=
  if !v.faultError ∧ v.remaining > 0 then
    let oldLen := w.conn.outputBuffer_.readableBytes
    let w1 :=
      if (oldLen + v.remaining) % SIZE_MOD ≥ w.conn.highWaterMark_
          ∧ oldLen < w.conn.highWaterMark_
          ∧ w.conn.highWaterMarkCallback_ = true then
        queueInLoop (.highWaterMarkCallback ((oldLen + v.remaining) % SIZE_MOD)) w
      else w
    let w2 := w1.setOutputBuffer
      (w1.conn.outputBuffer_.append ((data.drop v.nwrote.toNat).take v.remaining))
    if !w2.conn.channel_.isWriting then
      Channel.enableWriting w2
    else w2
  else w

/-- `TcpConnection::sendInLoop` (TcpConnection.cc:215-280); `wr` is the result
of the direct `::write`, consulted only when that write is made. -/
def sendInLoop (data : List Char) (wr : SysResult) (w : World) : World :=
  if w.conn.state_ = .kDisconnected then
    logError .giveUpWriting w
  else
    let r : SendLocals × World :=
      if !w.conn.channel_.isWriting ∧ w.conn.outputBuffer_.readableBytes = 0 then
        sendInLoop.directWrite data wr w
      else
        ({ nwrote := 0, remaining := data.length, faultError := false }, w)
    sendInLoop.buffer data r.1 r.2

/-- `TcpConnection::send` (TcpConnection.cc:194-213). -/
def send (isInLoopThread : Bool) (buf : List Char) (wr : SysResult) (w : World) : World :=
  if w.conn.state_ = .kConnected then
    if isInLoopThread then
      sendInLoop buf wr w
    else
      runInLoop isInLoopThread (sendInLoop buf wr) (.sendInLoop buf.length) w
  else w

/-- A queued task runs on the loop thread. For a `sendInLoop` task `mem` is
what the memory at the bound address holds at that moment, of which the task
reads the bound count of bytes; `wr` is the result of its `::write`. -/
def runFunctor (f : PendingFunctor) (wr : SysResult) (mem : List Char) (w : World) : World :=
  match f with
  | .sendInLoop len => sendInLoop (mem.take len) wr w
  | .shutdownInloop => shutdownInloop w
  | .writeCompleteCallback => w.emit .writeCompleteCallback
  | .highWaterMarkCallback len => w.emit (.highWaterMarkCallback len)

/-- Modelled from the spec: the loop takes the oldest task off its queue and
runs it. -/
def doPendingFunctor (wr : SysResult) (mem : List Char) (w : World) : World :=
  match w.pendingFunctors_ with
  | [] => w
  | f :: rest => runFunctor f wr mem { w with pendingFunctors_ := rest }

/-- The callbacks that the constructor of `TcpConnection` installs on its
channel (TcpConnection.cc:41-52), each with the results of the system calls it
will make. -/
def channelCallbacks (rd : ReadResult) (so : SockOptResult) (wr : SysResult) :
    ChannelCallbacks World where
  readCallback_ := some (fun receiveTime w => haneleRead rd so receiveTime w)
  writeCallback_ := some (fun w => handleWrite wr w)
  closeCallback_ := some (fun w => handleClose w)
  errorCallback_ := some (fun w => handleError so w)

/-! ### Counting in traces and queues -/

/-- How often effect `e` occurs in a trace. -/
def countEffect (e : Effect) (tr : List Effect) : Nat := tr.count e

/-- How many high-water-mark tasks a queue holds. -/
def countHighWater (q : List PendingFunctor) : Nat :=
  (q.filter (fun f => match f with
    | .highWaterMarkCallback _ => true
    | _ => false)).length

/-- How many write-complete tasks a queue holds. -/
def countWriteComplete (q : List PendingFunctor) : Nat :=
  q.count .writeCompleteCallback

/-! ### Runs of the connection -/

/-- The operations that the loop, the channel and the user invoke on a
connection, each with the results of the system calls it makes. -/
inductive Op where
  | connectEstablished
  | connectDestroyed
  | shutdown (isInLoopThread : Bool)
  | send (isInLoopThread : Bool) (buf : List Char) (wr : SysResult)
  | haneleRead (rd : ReadResult) (so : SockOptResult) (receiveTime : Timestamp)
  | handleWrite (wr : SysResult)
  | handleClose
  | handleError (so : SockOptResult)
  | doPendingFunctor (wr : SysResult) (mem : List Char)
  deriving DecidableEq, Repr

/-- One operation is carried out. -/
def step (op : Op) (w : World) : World :=
  match op with
  | .connectEstablished => connectEstablished w
  | .connectDestroyed => connectDestroyed w
  | .shutdown isInLoopThread => shutdown isInLoopThread w
  | .send isInLoopThread buf wr => send isInLoopThread buf wr w
  | .haneleRead rd so receiveTime => haneleRead rd so receiveTime w
  | .handleWrite wr => handleWrite wr w
  | .handleClose => handleClose w
  | .handleError so => handleError so w
  | .doPendingFunctor wr mem => doPendingFunctor wr mem w

/-- The contract of `::write` on `len` bytes: -1, or a count of at most `len`. -/
def SysResult.okForWrite (wr : SysResult) (len : Nat) : Prop :=
  wr.ret = -1 ∨ (0 ≤ wr.ret ∧ wr.ret ≤ (len : Int))

instance (wr : SysResult) (len : Nat) : Decidable (wr.okForWrite len) := by
  unfold SysResult.okForWrite; infer_instance

/-- What the surroundings guarantee when they invoke an operation: the
connection is established once, from its initial state; what is sent fits a
`size_t` length; `::write` keeps its contract; the memory a queued send reads
holds at least the bound count of bytes. -/
def Op.admissible (op : Op) (w : World) : Prop :=
  match op with
  | .connectEstablished => w.conn.state_ = .kConnecting
  | .send _ buf wr => buf.length < SIZE_MOD ∧ wr.okForWrite buf.length
  | .handleWrite wr => wr.okForWrite w.conn.outputBuffer_.readableBytes
  | .doPendingFunctor wr mem =>
      match w.pendingFunctors_ with
      | .sendInLoop len :: _ => len ≤ mem.length ∧ wr.okForWrite len
      | _ => True
  | _ => True

instance (op : Op) (w : World) : Decidable (op.admissible w) := by
  cases op <;> simp only [Op.admissible] <;> first | infer_instance | (split <;> infer_instance)

/-- A freshly constructed connection (TcpConnection.cc:25-56) on which the
optional callbacks and the high-water mark have been set or not. The
keep-alive socket option set by the constructor has no part in what follows. -/
def World.init (writeComplete highWater : Bool) (mark : Nat) : World :=
  { conn := { writeCompleteCallback_ := writeComplete
              highWaterMarkCallback_ := highWater
              highWaterMark_ := mark } }

/-- The worlds a connection can be in: those that admissible operations
produce from a freshly constructed connection. -/
inductive Reachable : World → Prop where
  | init (writeComplete highWater : Bool) (mark : Nat) :
      Reachable (World.init writeComplete highWater mark)
  | step {w : World} (op : Op) : Reachable w → op.admissible w → Reachable (step op w)

/-- The buffering invariant: writable interest is registered exactly when
output is pending, the second half while the connection is not Disconnected;
and whatever waits in the queue to be sent fits a `size_t` length. -/
def BufferingInv (w : World) : Prop :=
  (w.conn.channel_.isWriting = true → w.conn.outputBuffer_.bytes ≠ [])
  ∧ (w.conn.state_ ≠ .kDisconnected → w.conn.outputBuffer_.bytes ≠ [] →
      w.conn.channel_.isWriting = true)
  ∧ (∀ len, PendingFunctor.sendInLoop len ∈ w.pendingFunctors_ → len < SIZE_MOD)

/-- How often the closed notification has been delivered: the connection
callback invoked while the state is Disconnected. -/
def closedNotifications (tr : List Effect) : Nat :=
  countEffect (Effect.connectionCallback StateE.kDisconnected) tr

/-- The bytes that one effect hands to the descriptor: for a `::write` that
returned a count, that many bytes from the front of what was offered. -/
def Effect.accepted : Effect → List Char
  | .sysWrite offered ret => offered.take ret.toNat
  | _ => []

/-- The bytes the descriptor has accepted in the course of a trace, in order. -/
def acceptedBytes : List Effect → List Char
  | [] => []
  | e :: tr => e.accepted ++ acceptedBytes tr

/-- The two calls that move bytes out: `sendInLoop(data)` and `handleWrite`,
each with the result of the `::write` it may make. -/
inductive IoOp where
  | sendInLoop (data : List Char) (wr : SysResult)
  | handleWrite (wr : SysResult)
  deriving DecidableEq, Repr

/-- One of the two calls is made. -/
def IoOp.run (op : IoOp) (w : World) : World :=
  match op with
  | .sendInLoop data wr => mymuduo.sendInLoop data wr w
  | .handleWrite wr => mymuduo.handleWrite wr w

/-- A sequence of the two calls is made, in order. -/
def runIo (ops : List IoOp) (w : World) : World :=
  ops.foldl (fun acc op => op.run acc) w

/-- The bytes a call asks to send. -/
def IoOp.data : IoOp → List Char
  | .sendInLoop data _ => data
  | .handleWrite _ => []

/-- The bytes that a sequence of calls asks to send, `d_1 ++ ... ++ d_k`. -/
def sentBytes : List IoOp → List Char
  | [] => []
  | op :: ops => op.data ++ sentBytes ops

/-- A write result that is a would-block failure or a count between 0 and the
length offered. -/
def SysResult.wouldBlockOrCount (wr : SysResult) (len : Nat) : Prop :=
  (wr.ret = -1 ∧ wr.errno = EWOULDBLOCK) ∨ (0 ≤ wr.ret ∧ wr.ret ≤ (len : Int))

instance (wr : SysResult) (len : Nat) : Decidable (wr.wouldBlockOrCount len) := by
  unfold SysResult.wouldBlockOrCount; infer_instance

/-- The write result of a call is a would-block failure or a count of at most
what the call offers; what is sent fits a `size_t` length. -/
def IoOp.ok (op : IoOp) (w : World) : Prop :=
  match op with
  | .sendInLoop data wr => data.length < SIZE_MOD ∧ wr.wouldBlockOrCount data.length
  | .handleWrite wr => wr.wouldBlockOrCount w.conn.outputBuffer_.readableBytes

/-- Every call of a sequence has such a write result, in the world in which it
is made. -/
def runOk : List IoOp → World → Prop
  | [], _ => True
  | op :: ops, w => op.ok w ∧ runOk ops (op.run w)

instance (op : IoOp) (w : World) : Decidable (op.ok w) := by
  cases op <;> simp only [IoOp.ok] <;> infer_instance

/-- Whether every call of a sequence has an admitted write result can be
computed. -/
instance runOkDecidable : (ops : List IoOp) → (w : World) → Decidable (runOk ops w)
  | [], _ => isTrue trivial
  | op :: ops, w => @instDecidableAnd _ _ inferInstance (runOkDecidable ops (op.run w))

/-! ### After the half-close -/

/-- The write side of the socket has been half-closed: `shutdownWrite` has
been performed at some point of the trace. -/
def halfClosed (w : World) : Prop := Effect.shutdownWrite ∈ w.trace

instance (w : World) : Decidable (halfClosed w) := by
  unfold halfClosed; infer_instance

/-- The result of the `::write` that an operation makes, if it makes one. -/
def Op.writeResult : Op → Option SysResult
  | .send _ _ wr => some wr
  | .handleWrite wr => some wr
  | .doPendingFunctor wr _ => some wr
  | _ => none

/-- What the descriptor does once its write side is shut down: every `::write`
fails with `EPIPE`. -/
def Op.afterHalfClose (op : Op) (w : World) : Prop :=
  halfClosed w → ∀ wr, op.writeResult = some wr → wr.ret = -1 ∧ wr.errno = EPIPE

/-- Whether the operation is the loop running a queued `shutdownInloop` task. -/
def Op.runsShutdownTask (op : Op) (w : World) : Bool :=
  match op, w.pendingFunctors_ with
  | .doPendingFunctor _ _, .shutdownInloop :: _ => true
  | _, _ => false

/-- The worlds a connection can be in when, in addition to what `Reachable`
asks, the descriptor fails every write after the half-close with `EPIPE`. -/
inductive ReachableOS : World → Prop where
  | init (writeComplete highWater : Bool) (mark : Nat) :
      ReachableOS (World.init writeComplete highWater mark)
  | step {w : World} (op : Op) :
      ReachableOS w → op.admissible w → op.afterHalfClose w → ReachableOS (step op w)

/-- What holds on every such world: once half-closed, the connection is
Disconnecting or Disconnected and has no writable interest; and a
`shutdownInloop` task waits in the queue only on such a connection. -/
def HalfClosedInv (w : World) : Prop :=
  (halfClosed w →
    w.conn.state_ ≠ StateE.kConnecting ∧ w.conn.state_ ≠ StateE.kConnected
    ∧ w.conn.channel_.isWriting = false)
  ∧ (PendingFunctor.shutdownInloop ∈ w.pendingFunctors_ →
    w.conn.state_ ≠ StateE.kConnecting ∧ w.conn.state_ ≠ StateE.kConnected)

/-! # Theorems -/

/-! ## Bit masks -/

theorem land_two_pow_ne_zero_iff (n i : Nat) : (n &&& 2 ^ i ≠ 0) ↔ n.testBit i = true := by
  constructor
  · intro h
    by_contra hb
    apply h
    apply Nat.eq_of_testBit_eq
    intro j
    simp only [Nat.testBit_and, Nat.testBit_two_pow, Nat.zero_testBit]
    by_cases hij : i = j
    · subst hij; simp [hb]
    · simp [hij]
  · intro h h0
    have := congrArg (fun m => m.testBit i) h0
    simp [Nat.testBit_and, Nat.testBit_two_pow, h] at this

theorem land_lor_ne_zero_iff (n a b : Nat) :
    (n &&& (a ||| b) ≠ 0) ↔ (n &&& a ≠ 0 ∨ n &&& b ≠ 0) := by
  rw [Nat.and_or_distrib_left]
  constructor
  · intro h
    by_contra hc
    push_neg at hc
    apply h
    rw [hc.1, hc.2]; rfl
  · intro h h0
    have h1 : n &&& a = 0 := by
      apply Nat.eq_of_testBit_eq; intro j
      have := congrArg (fun m => m.testBit j) h0
      simp [Nat.testBit_or] at this
      simp; exact this.1
    have h2 : n &&& b = 0 := by
      apply Nat.eq_of_testBit_eq; intro j
      have := congrArg (fun m => m.testBit j) h0
      simp [Nat.testBit_or] at this
      simp; exact this.2
    rcases h with h | h
    · exact h h1
    · exact h h2

theorem hup_set_iff (r : Nat) : (r &&& EPOLLHUP ≠ 0) ↔ r.testBit bitHUP = true :=
  land_two_pow_ne_zero_iff r 4

theorem in_set_iff (r : Nat) : (r &&& EPOLLIN ≠ 0) ↔ r.testBit bitIN = true :=
  land_two_pow_ne_zero_iff r 0

theorem err_set_iff (r : Nat) : (r &&& EPOLLERR ≠ 0) ↔ r.testBit bitERR = true :=
  land_two_pow_ne_zero_iff r 3

theorem out_set_iff (r : Nat) : (r &&& EPOLLOUT ≠ 0) ↔ r.testBit bitOUT = true :=
  land_two_pow_ne_zero_iff r 2

theorem pri_set_iff (r : Nat) : (r &&& EPOLLPRI ≠ 0) ↔ r.testBit bitPRI = true :=
  land_two_pow_ne_zero_iff r 1

theorem in_or_pri_set_iff (r : Nat) :
    (r &&& (EPOLLIN ||| EPOLLPRI) ≠ 0) ↔ (r.testBit bitIN = true ∨ r.testBit bitPRI = true) := by
  rw [land_lor_ne_zero_iff, in_set_iff, pri_set_iff]

/-! ## Channel dispatch -/

theorem handleEventWithGuard_eq_spec {σ : Type} (ch : Channel) (cbs : ChannelCallbacks σ)
    (receiveTime : Timestamp) (s : σ) :
    ch.handleEventWithGuard cbs receiveTime s
      = cbs.invokeAll receiveTime (dispatchSpec ch.revents_) s := by
  unfold Channel.handleEventWithGuard dispatchSpec ChannelCallbacks.invokeAll selectIf
  simp only [hup_set_iff, in_set_iff, err_set_iff, out_set_iff, in_or_pri_set_iff]
  cases ch.revents_.testBit bitHUP <;>
  cases ch.revents_.testBit bitIN <;>
  cases ch.revents_.testBit bitERR <;>
  cases ch.revents_.testBit bitPRI <;>
  cases ch.revents_.testBit bitOUT <;>
  simp [ChannelCallbacks.invoke]

theorem selectIf_sublist (a b c d : Bool) :
    (selectIf a CallbackKind.close ++ selectIf b CallbackKind.error
      ++ selectIf c CallbackKind.read ++ selectIf d CallbackKind.write).Sublist
      [CallbackKind.close, CallbackKind.error, CallbackKind.read, CallbackKind.write] := by
  cases a <;> cases b <;> cases c <;> cases d <;> decide

theorem dispatchSpec_sublist (r : Nat) :
    (dispatchSpec r).Sublist
      [CallbackKind.close, CallbackKind.error, CallbackKind.read, CallbackKind.write] :=
  selectIf_sublist _ _ _ _

theorem recorder_selectIf (receiveTime : Timestamp) (a b c d : Bool) :
    recorder.invokeAll receiveTime
        (selectIf a CallbackKind.close ++ selectIf b CallbackKind.error
          ++ selectIf c CallbackKind.read ++ selectIf d CallbackKind.write) []
      = selectIf a CallbackKind.close ++ selectIf b CallbackKind.error
          ++ selectIf c CallbackKind.read ++ selectIf d CallbackKind.write := by
  cases a <;> cases b <;> cases c <;> cases d <;> rfl

theorem recorder_dispatchSpec (receiveTime : Timestamp) (r : Nat) :
    recorder.invokeAll receiveTime (dispatchSpec r) [] = dispatchSpec r :=
  recorder_selectIf receiveTime _ _ _ _

/-- C3. `Channel::handleEvent` on a channel that is untied, or tied to an owner
that is alive, invokes exactly the callbacks that the dispatch rule selects
from the readiness flags (close iff HUP and not IN, error iff ERR, read iff IN
or PRI, write iff OUT), in that order, each at most once; a callback that is
not registered is skipped and the state is passed on untouched. With callbacks
that only record their invocation, the record is the selected list itself. -/
theorem handleEvent_dispatch {σ : Type} (ch : Channel) (cbs : ChannelCallbacks σ)
    (receiveTime : Timestamp) (s : σ)
    (h : ch.tied_ = false ∨ ch.tie_ = WeakPtr.live) :
    ch.handleEvent cbs receiveTime s = cbs.invokeAll receiveTime (dispatchSpec ch.revents_) s
    ∧ ch.handleEvent recorder receiveTime [] = dispatchSpec ch.revents_
    ∧ (dispatchSpec ch.revents_).Sublist
        [CallbackKind.close, CallbackKind.error, CallbackKind.read, CallbackKind.write]
    ∧ (cbs.closeCallback_ = none → ∀ x : σ, cbs.invoke receiveTime CallbackKind.close x = x)
    ∧ (cbs.errorCallback_ = none → ∀ x : σ, cbs.invoke receiveTime CallbackKind.error x = x)
    ∧ (cbs.readCallback_ = none → ∀ x : σ, cbs.invoke receiveTime CallbackKind.read x = x)
    ∧ (cbs.writeCallback_ = none → ∀ x : σ, cbs.invoke receiveTime CallbackKind.write x = x) := by
  have hev : ∀ {τ : Type} (c : ChannelCallbacks τ) (x : τ),
      ch.handleEvent c receiveTime x = ch.handleEventWithGuard c receiveTime x := by
    intro τ c x
    unfold Channel.handleEvent
    rcases h with h | h
    · simp [h]
    · simp [h, WeakPtr.lock]
  refine ⟨?_, ?_, dispatchSpec_sublist _, ?_, ?_, ?_, ?_⟩
  · rw [hev, handleEventWithGuard_eq_spec]
  · rw [hev, handleEventWithGuard_eq_spec, recorder_dispatchSpec]
  · intro hn x; simp [ChannelCallbacks.invoke, hn]
  · intro hn x; simp [ChannelCallbacks.invoke, hn]
  · intro hn x; simp [ChannelCallbacks.invoke, hn]
  · intro hn x; simp [ChannelCallbacks.invoke, hn]

/-- Witness of C3: a tied channel with a live owner and flags HUP, ERR, OUT. -/
theorem handleEvent_dispatch_witness :
    (((({} : Channel).tie true).set_revents 28).tied_ = false
      ∨ ((({} : Channel).tie true).set_revents 28).tie_ = WeakPtr.live)
    ∧ ((({} : Channel).tie true).set_revents 28).handleEvent recorder 0 []
        = [CallbackKind.close, CallbackKind.error, CallbackKind.write] :=
  ⟨Or.inr rfl,
   ((handleEvent_dispatch ((({} : Channel).tie true).set_revents 28) recorder 0 []
      (Or.inr rfl)).2.1).trans (by decide)⟩

/-- C4. A channel that has been tied and whose owner can no longer be locked
(the owner has been destroyed) dispatches nothing: for all readiness flags and
all callbacks `handleEvent` hands the state back unchanged, and it is a total
function, so there is no fault. In particular this is so after `tie` followed
by the destruction of the owner. -/
theorem handleEvent_owner_destroyed {σ : Type} (ch : Channel) (cbs : ChannelCallbacks σ)
    (receiveTime : Timestamp) (s : σ) (revents : Nat) (obj : Bool) :
    (((ch.tie obj).ownerDestroyed).set_revents revents).handleEvent cbs receiveTime s = s
    ∧ (((ch.tie obj).ownerDestroyed).set_revents revents).handleEvent recorder receiveTime [] = [] := by
  constructor <;>
  · unfold Channel.handleEvent Channel.set_revents Channel.ownerDestroyed Channel.tie
    cases obj <;> simp [WeakPtr.lock, WeakPtr.expire]

/-! ## Interest flags and `size_t` arithmetic -/

theorem isWriting_iff_testBit (ch : Channel) :
    ch.isWriting = true ↔ ch.events_.testBit bitOUT = true := by
  unfold Channel.isWriting
  rw [bne_iff_ne]
  exact out_set_iff ch.events_

theorem isWriting_enable (e : Nat) (ch : Channel) :
    ({ ch with events_ := e ||| kWriteEvent } : Channel).isWriting = true := by
  rw [isWriting_iff_testBit]
  simp [Nat.testBit_or, kWriteEvent, EPOLLOUT, bitOUT]
  right; decide

theorem isWriting_disable (e : Nat) (ch : Channel) :
    ({ ch with events_ := e &&& flagComplement kWriteEvent } : Channel).isWriting = false := by
  rw [← Bool.not_eq_true, isWriting_iff_testBit]
  simp [Nat.testBit_and, kWriteEvent, EPOLLOUT, bitOUT, flagComplement]
  intro _; decide

theorem isWriting_none (ch : Channel) :
    ({ ch with events_ := kNoneEvent } : Channel).isWriting = false := by
  simp [Channel.isWriting, kNoneEvent]

theorem isWriting_enableReading (e : Nat) (ch : Channel) :
    ({ ch with events_ := e ||| kReadEvent } : Channel).isWriting
      = ({ ch with events_ := e } : Channel).isWriting := by
  rw [Bool.eq_iff_iff, isWriting_iff_testBit, isWriting_iff_testBit]
  simp [Nat.testBit_or, kReadEvent, EPOLLIN, EPOLLPRI, bitOUT]
  intro h; exact absurd h (by decide)

theorem remaining_eq (len k : Nat) (hk : k ≤ len) (hlen : len < SIZE_MOD) :
    (((len : Int) - (k : Int)) % (SIZE_MOD : Int)).toNat = len - k := by
  have h1 : ((len : Int) - (k : Int)) = ((len - k : Nat) : Int) := by omega
  rw [h1]
  have h2 : ((len - k : Nat) : Int) % (SIZE_MOD : Int) = ((len - k : Nat) : Int) := by
    apply Int.emod_eq_of_lt
    · omega
    · have : len - k < SIZE_MOD := by omega
      exact_mod_cast this
  rw [h2]; simp

/-! ## The send path -/

theorem drop_take_rest (b : List Char) (k : Nat) :
    (b.drop k).take (b.length - k) = b.drop k := by
  apply List.take_of_length_le
  simp

/-- The test of `sendInLoop` that decides whether the high-water-mark task is
queued, as a list of zero or one task. -/
theorem buffer_step_eq (data : List Char) (v : SendLocals) (w : World)
    (hf : v.faultError = false) (hr : 0 < v.remaining) :
    sendInLoop.buffer data v w =
      { conn := { w.conn with
                  outputBuffer_ :=
                    { bytes := w.conn.outputBuffer_.bytes
                        ++ (data.drop v.nwrote.toNat).take v.remaining }
                  channel_ := { w.conn.channel_ with
                    events_ := if w.conn.channel_.isWriting = true then w.conn.channel_.events_
                               else w.conn.channel_.events_ ||| kWriteEvent } }
        pendingFunctors_ := w.pendingFunctors_ ++
          (if (w.conn.outputBuffer_.bytes.length + v.remaining) % SIZE_MOD ≥ w.conn.highWaterMark_
              ∧ w.conn.outputBuffer_.bytes.length < w.conn.highWaterMark_
              ∧ w.conn.highWaterMarkCallback_ = true
           then [PendingFunctor.highWaterMarkCallback
                  ((w.conn.outputBuffer_.bytes.length + v.remaining) % SIZE_MOD)]
           else [])
        trace := w.trace ++
          (if w.conn.channel_.isWriting = true then []
           else [Effect.updateChannel (w.conn.channel_.events_ ||| kWriteEvent)]) } := by
  unfold sendInLoop.buffer
  have hcond : (!v.faultError ∧ v.remaining > 0) := by simp [hf, hr]
  rw [if_pos hcond]
  by_cases hh : (w.conn.outputBuffer_.bytes.length + v.remaining) % SIZE_MOD ≥ w.conn.highWaterMark_
      ∧ w.conn.outputBuffer_.bytes.length < w.conn.highWaterMark_
      ∧ w.conn.highWaterMarkCallback_ = true <;>
  by_cases hw : w.conn.channel_.isWriting = true <;>
  simp [hh, hw, Buffer.readableBytes, queueInLoop, World.setOutputBuffer, Buffer.append,
    Channel.enableWriting, Channel.update, World.setEvents, World.emit]

theorem directWrite_ok (data : List Char) (wr : SysResult) (w : World) (h : 0 ≤ wr.ret) :
    sendInLoop.directWrite data wr w =
      ({ nwrote := wr.ret
         remaining := (((data.length : Int) - wr.ret) % (SIZE_MOD : Int)).toNat
         faultError := false },
       { conn := w.conn
         pendingFunctors_ := w.pendingFunctors_ ++
           (if (((data.length : Int) - wr.ret) % (SIZE_MOD : Int)).toNat = 0
               ∧ w.conn.writeCompleteCallback_ = true
            then [PendingFunctor.writeCompleteCallback] else [])
         trace := w.trace ++ [Effect.sysWrite data wr.ret] }) := by
  unfold sendInLoop.directWrite
  dsimp only
  rw [if_pos (ge_iff_le.mpr h)]
  generalize (((data.length : Int) - wr.ret) % (SIZE_MOD : Int)).toNat = r
  by_cases hc : r = 0 ∧ w.conn.writeCompleteCallback_ = true <;>
  simp [h, hc, World.emit, queueInLoop]

theorem sendInLoop_fast (data : List Char) (wr : SysResult) (w : World)
    (hstate : w.conn.state_ ≠ StateE.kDisconnected)
    (hnow : w.conn.channel_.isWriting = false)
    (hempty : w.conn.outputBuffer_.bytes = []) :
    sendInLoop data wr w =
      sendInLoop.buffer data (sendInLoop.directWrite data wr w).1
        (sendInLoop.directWrite data wr w).2 := by
  unfold sendInLoop
  simp [hstate, hnow, hempty, Buffer.readableBytes]

theorem sendInLoop_backlog (data : List Char) (wr : SysResult) (w : World)
    (hstate : w.conn.state_ ≠ StateE.kDisconnected)
    (hback : w.conn.channel_.isWriting = true ∨ w.conn.outputBuffer_.bytes ≠ []) :
    sendInLoop data wr w =
      sendInLoop.buffer data { nwrote := 0, remaining := data.length, faultError := false } w := by
  unfold sendInLoop
  rcases hback with h | h <;> simp [hstate, h, Buffer.readableBytes]

theorem send_inLoop (w : World) (buf : List Char) (wr : SysResult)
    (hstate : w.conn.state_ = StateE.kConnected) :
    send true buf wr w = sendInLoop buf wr w := by
  simp [send, hstate]

/-- C1. `send(b)` on the loop thread, on a Connected connection without backlog
(outbound buffer empty, no writable interest), when the direct write accepts a
prefix of `k < len(b)` bytes: afterwards the outbound buffer holds exactly
`b[k:]` and writable interest is registered; the only system call made is that
one write, followed by the re-registration of the channel. -/
theorem send_partial_write (w : World) (b : List Char) (k : Nat) (errno : Int)
    (hstate : w.conn.state_ = StateE.kConnected)
    (hempty : w.conn.outputBuffer_.bytes = [])
    (hnow : w.conn.channel_.isWriting = false)
    (hk : k < b.length) (hlen : b.length < SIZE_MOD) :
    (send true b { ret := (k : Int), errno := errno } w).conn.outputBuffer_.bytes = b.drop k
    ∧ (send true b { ret := (k : Int), errno := errno } w).conn.channel_.isWriting = true
    ∧ (send true b { ret := (k : Int), errno := errno } w).trace
        = w.trace ++ [Effect.sysWrite b (k : Int),
            Effect.updateChannel (w.conn.channel_.events_ ||| kWriteEvent)]
    ∧ (send true b { ret := (k : Int), errno := errno } w).conn.state_ = StateE.kConnected := by
  have hrem : (((b.length : Int) - (k : Int)) % (SIZE_MOD : Int)).toNat = b.length - k :=
    remaining_eq b.length k (Nat.le_of_lt hk) hlen
  have hpos : 0 < b.length - k := by omega
  have hne : w.conn.state_ ≠ StateE.kDisconnected := by rw [hstate]; decide
  rw [send_inLoop w b _ hstate, sendInLoop_fast b _ w hne hnow hempty,
    directWrite_ok b _ w (by simp)]
  dsimp only
  rw [hrem, buffer_step_eq _ _ _ rfl hpos]
  dsimp only
  simp [hempty, hnow, hstate, drop_take_rest, isWriting_enable, Nat.sub_eq_zero_iff_le,
    Nat.not_le.mpr hk]

/-- Witness of C1: `send("hello")` right after `connectEstablished`, the write
accepts 2 bytes; "llo" is buffered. -/
theorem send_partial_write_witness :
    (connectEstablished (World.init true false 1024)).conn.state_ = StateE.kConnected
    ∧ (2 : Nat) < "hello".toList.length
    ∧ (send true "hello".toList { ret := 2 }
        (connectEstablished (World.init true false 1024))).conn.outputBuffer_.bytes
        = "llo".toList
    ∧ (send true "hello".toList { ret := 2 }
        (connectEstablished (World.init true false 1024))).conn.channel_.isWriting = true :=
  ⟨rfl, by decide,
   (send_partial_write (connectEstablished (World.init true false 1024)) "hello".toList 2 0
      rfl rfl (by decide) (by decide) (by unfold SIZE_MOD; decide)).1.trans (by decide),
   (send_partial_write (connectEstablished (World.init true false 1024)) "hello".toList 2 0
      rfl rfl (by decide) (by decide) (by unfold SIZE_MOD; decide)).2.1⟩

/-- C2, as stated, fails twice. On a Connected connection without backlog and
without a registered write-complete callback, a write that accepts all of "hi"
queues no callback at all. On a Connected connection with backlog ("llo"
pending), `send("x")` makes no write at all, whatever the descriptor would
accept, and the outbound buffer afterwards holds "llox". -/
theorem send_full_write_counterexample :
    ((connectEstablished (World.init false false 1024)).conn.state_ = StateE.kConnected
      ∧ countWriteComplete (send true "hi".toList { ret := 2 }
          (connectEstablished (World.init false false 1024))).pendingFunctors_ = 0)
    ∧ ((send true "hello".toList { ret := 2 }
          (connectEstablished (World.init true false 1024))).conn.state_ = StateE.kConnected
      ∧ (send true "x".toList { ret := 1 }
          (send true "hello".toList { ret := 2 }
            (connectEstablished (World.init true false 1024)))).conn.outputBuffer_.bytes
          = "llox".toList
      ∧ countWriteComplete (send true "x".toList { ret := 1 }
          (send true "hello".toList { ret := 2 }
            (connectEstablished (World.init true false 1024)))).pendingFunctors_ = 0) := by
  decide

/-- C2, amended. `send(b)` on the loop thread, on a Connected connection without
backlog (outbound buffer empty, no writable interest), when the direct write
accepts all of `b`: the write-complete callback is appended to the loop's queue
exactly once when it is registered and not at all when it is not; nothing is
invoked inline (the trace grows by the write alone); the connection, hence its
empty outbound buffer, is unchanged. -/
theorem send_full_write (w : World) (b : List Char) (errno : Int)
    (hstate : w.conn.state_ = StateE.kConnected)
    (hempty : w.conn.outputBuffer_.bytes = [])
    (hnow : w.conn.channel_.isWriting = false) :
    (send true b { ret := (b.length : Int), errno := errno } w).pendingFunctors_
        = w.pendingFunctors_ ++
            (if w.conn.writeCompleteCallback_ = true then [PendingFunctor.writeCompleteCallback]
             else [])
    ∧ countWriteComplete (send true b { ret := (b.length : Int), errno := errno } w).pendingFunctors_
        = countWriteComplete w.pendingFunctors_
            + (if w.conn.writeCompleteCallback_ = true then 1 else 0)
    ∧ (send true b { ret := (b.length : Int), errno := errno } w).trace
        = w.trace ++ [Effect.sysWrite b (b.length : Int)]
    ∧ (send true b { ret := (b.length : Int), errno := errno } w).conn = w.conn
    ∧ (send true b { ret := (b.length : Int), errno := errno } w).conn.outputBuffer_.bytes = [] := by
  have hne : w.conn.state_ ≠ StateE.kDisconnected := by rw [hstate]; decide
  have hrem : (((b.length : Int) - (b.length : Int)) % (SIZE_MOD : Int)).toNat = 0 := by simp
  rw [send_inLoop w b _ hstate, sendInLoop_fast b _ w hne hnow hempty,
    directWrite_ok b _ w (by simp)]
  dsimp only
  rw [hrem]
  unfold sendInLoop.buffer
  cases hc : w.conn.writeCompleteCallback_ <;> simp [hempty, countWriteComplete]

/-- Witness of C2, amended: with a registered callback, the queue goes from
empty to exactly the one write-complete task. -/
theorem send_full_write_witness :
    (connectEstablished (World.init true false 1024)).conn.state_ = StateE.kConnected
    ∧ (send true "hi".toList { ret := 2 }
        (connectEstablished (World.init true false 1024))).pendingFunctors_
        = [PendingFunctor.writeCompleteCallback] :=
  ⟨rfl,
   (send_full_write (connectEstablished (World.init true false 1024)) "hi".toList 0
      rfl rfl (by decide)).1.trans (by decide)⟩

/-! ## The state of the connection -/

theorem buffer_step_state (data : List Char) (v : SendLocals) (w : World) :
    (sendInLoop.buffer data v w).conn.state_ = w.conn.state_ := by
  unfold sendInLoop.buffer
  dsimp only
  split_ifs <;>
  simp [queueInLoop, World.setOutputBuffer, Channel.enableWriting, Channel.update,
    World.setEvents, World.emit]

theorem directWrite_state (data : List Char) (wr : SysResult) (w : World) :
    (sendInLoop.directWrite data wr w).2.conn.state_ = w.conn.state_ := by
  unfold sendInLoop.directWrite
  dsimp only
  split_ifs <;> simp [queueInLoop, World.emit, logError]

theorem sendInLoop_state (data : List Char) (wr : SysResult) (w : World) :
    (sendInLoop data wr w).conn.state_ = w.conn.state_ := by
  unfold sendInLoop
  dsimp only
  split_ifs
  · simp [logError, World.emit]
  · rw [buffer_step_state, directWrite_state]
  · rw [buffer_step_state]

theorem shutdownInloop_state (w : World) :
    (shutdownInloop w).conn.state_ = w.conn.state_ := by
  unfold shutdownInloop
  split_ifs <;> simp [Socket.shutdownWrite, World.emit]

theorem handleWrite_state (wr : SysResult) (w : World) :
    (handleWrite wr w).conn.state_ = w.conn.state_ := by
  unfold handleWrite
  dsimp only
  split_ifs <;>
  simp [shutdownInloop_state, queueInLoop, Channel.disableWriting, Channel.update,
    World.setEvents, World.setOutputBuffer, Buffer.writeFd, World.emit, logError]

theorem handleClose_state (w : World) :
    (handleClose w).conn.state_ = StateE.kDisconnected := by
  simp [handleClose, closeCallback, connectionCallback, Channel.diableAll, Channel.update,
    World.setEvents, World.emit, setState]

theorem connectEstablished_state (w : World) :
    (connectEstablished w).conn.state_ = StateE.kConnected := by
  simp [connectEstablished, connectionCallback, Channel.enableReading, Channel.update,
    World.setEvents, World.emit, setState]

theorem rank_le_disconnected (s : StateE) : s.rank ≤ StateE.kDisconnected.rank := by
  cases s <;> decide

theorem step_state_forward (op : Op) (w : World) (h : op ≠ Op.connectEstablished) :
    w.conn.state_.rank ≤ (step op w).conn.state_.rank := by
  cases op with
  | connectEstablished => exact absurd rfl h
  | connectDestroyed =>
    simp only [step, connectDestroyed]
    split_ifs with hc
    · simp [Channel.remove, connectionCallback, Channel.diableAll, Channel.update,
        World.setEvents, World.emit, setState, rank_le_disconnected]
    · simp [Channel.remove, World.emit]
  | shutdown isInLoopThread =>
    simp only [step, shutdown]
    split_ifs with hc
    · cases isInLoopThread
      · simp [runInLoop, queueInLoop, setState, hc, StateE.rank]
      · simp [runInLoop, shutdownInloop_state, setState, hc, StateE.rank]
    · exact Nat.le_refl _
  | send isInLoopThread buf wr =>
    simp only [step, send]
    split_ifs
    · rw [sendInLoop_state]
    · simp [runInLoop, queueInLoop, *]
    · exact Nat.le_refl _
  | haneleRead rd so receiveTime =>
    simp only [step, haneleRead]
    split_ifs
    · simp [messageCallback, World.emit]
    · rw [handleClose_state]; exact rank_le_disconnected _
    · simp [handleError, logError, World.emit]
  | handleWrite wr =>
    simp only [step]
    rw [handleWrite_state]
  | handleClose =>
    simp only [step]
    rw [handleClose_state]; exact rank_le_disconnected _
  | handleError so => simp [step, handleError, logError, World.emit]
  | doPendingFunctor wr mem =>
    simp only [step, doPendingFunctor]
    split
    · exact Nat.le_refl _
    · rename_i f rest _
      cases f with
      | sendInLoop len => simp [runFunctor, sendInLoop_state]
      | shutdownInloop => simp [runFunctor, shutdownInloop_state]
      | writeCompleteCallback => simp [runFunctor, World.emit]
      | highWaterMarkCallback len => simp [runFunctor, World.emit]

/-- C5. The connection state only moves forward in the order Connecting <
Connected < Disconnecting < Disconnected: for every operation
(`connectEstablished`, `shutdown`, `send`, `haneleRead`, `handleWrite`,
`handleClose`, `handleError`, `connectDestroyed`, and a queued task run by the
loop), invoked as the surroundings invoke it (`connectEstablished` once, on
the freshly constructed connection), from every starting state and with every
admitted result of its system calls, the state after the operation is never
earlier in that order than the state before it. -/
theorem state_monotone (op : Op) (w : World) (hadm : op.admissible w) :
    w.conn.state_.rank ≤ (step op w).conn.state_.rank := by
  by_cases hop : op = Op.connectEstablished
  · subst hop
    have hst : w.conn.state_ = StateE.kConnecting := hadm
    simp only [step]
    rw [connectEstablished_state, hst]
    decide
  · exact step_state_forward op w hop

/-- Witness of C5: `connectEstablished` moves the fresh connection from
Connecting to Connected, and `shutdown` then moves it to Disconnecting. -/
theorem state_monotone_witness :
    (World.init false false 1024).conn.state_.rank
      ≤ (step Op.connectEstablished (World.init false false 1024)).conn.state_.rank
    ∧ (step Op.connectEstablished (World.init false false 1024)).conn.state_.rank
      ≤ (step (Op.shutdown true)
          (step Op.connectEstablished (World.init false false 1024))).conn.state_.rank
    ∧ (step (Op.shutdown true)
          (step Op.connectEstablished (World.init false false 1024))).conn.state_
        = StateE.kDisconnecting :=
  ⟨state_monotone Op.connectEstablished (World.init false false 1024) (by show _ = _; rfl),
   state_monotone (Op.shutdown true) (step Op.connectEstablished (World.init false false 1024))
     (by show True; trivial),
   by decide⟩

/-- C6. Unless the connection is Connected, `send(b)` does nothing at all, from
either thread and whatever the descriptor would accept: the world afterwards
is the world before, so nothing is written, the outbound buffer, the interest
flags and the state are unchanged, no task is queued and no error is logged. -/
theorem send_not_connected (w : World) (isInLoopThread : Bool) (b : List Char) (wr : SysResult)
    (hstate : w.conn.state_ = StateE.kConnecting ∨ w.conn.state_ = StateE.kDisconnecting
      ∨ w.conn.state_ = StateE.kDisconnected) :
    send isInLoopThread b wr w = w := by
  unfold send
  rcases hstate with h | h | h <;> simp [h]

/-- Witness of C6: a `send` after `shutdown` is dropped. -/
theorem send_not_connected_witness :
    (shutdown true (connectEstablished (World.init true true 1024))).conn.state_
        = StateE.kDisconnecting
    ∧ send true "late".toList { ret := 4 }
        (shutdown true (connectEstablished (World.init true true 1024)))
      = shutdown true (connectEstablished (World.init true true 1024)) :=
  ⟨by decide,
   send_not_connected (shutdown true (connectEstablished (World.init true true 1024))) true
     "late".toList { ret := 4 } (Or.inr (Or.inl (by decide)))⟩

/-! ## The read path -/

theorem handleClose_eq (w : World) :
    handleClose w =
      { conn := { w.conn with
                  state_ := StateE.kDisconnected
                  channel_ := { w.conn.channel_ with events_ := kNoneEvent } }
        pendingFunctors_ := w.pendingFunctors_
        trace := w.trace ++ [Effect.updateChannel kNoneEvent,
          Effect.connectionCallback StateE.kDisconnected, Effect.closeCallback] } := by
  simp [handleClose, closeCallback, connectionCallback, Channel.diableAll, Channel.update,
    World.setEvents, World.emit, setState]

theorem count_append_fresh (e : Effect) (tr rest : List Effect) :
    countEffect e (tr ++ rest) = countEffect e tr + countEffect e rest := by
  simp [countEffect]

/-- C9. A readable dispatch (`haneleRead`) whose read returns zero bytes, on a
Connected or Disconnecting connection (indeed from any state), with or without
writable interest: the state becomes Disconnected, all interest flags are cleared, and the trace grows
by exactly the re-registration of the (now empty) interest set, one connection
callback that observes Disconnected, and then one close callback; so each of
the two callbacks is invoked exactly once, in that order. The outbound buffer
and the loop's queue are untouched. -/
theorem haneleRead_zero (w : World) (rd : ReadResult) (so : SockOptResult)
    (receiveTime : Timestamp) (hzero : rd.ret = 0) :
    (haneleRead rd so receiveTime w).conn.state_ = StateE.kDisconnected
    ∧ (haneleRead rd so receiveTime w).conn.channel_.events_ = kNoneEvent
    ∧ (haneleRead rd so receiveTime w).conn.channel_.isWriting = false
    ∧ (haneleRead rd so receiveTime w).conn.channel_.isReading = false
    ∧ (haneleRead rd so receiveTime w).trace
        = w.trace ++ [Effect.updateChannel kNoneEvent,
            Effect.connectionCallback StateE.kDisconnected, Effect.closeCallback]
    ∧ countEffect (Effect.connectionCallback StateE.kDisconnected)
          (haneleRead rd so receiveTime w).trace
        = countEffect (Effect.connectionCallback StateE.kDisconnected) w.trace + 1
    ∧ countEffect Effect.closeCallback (haneleRead rd so receiveTime w).trace
        = countEffect Effect.closeCallback w.trace + 1
    ∧ (haneleRead rd so receiveTime w).conn.outputBuffer_ = w.conn.outputBuffer_
    ∧ (haneleRead rd so receiveTime w).pendingFunctors_ = w.pendingFunctors_ := by
  have heq : haneleRead rd so receiveTime w = handleClose w := by
    unfold haneleRead
    simp [hzero, Buffer.readFd]
  rw [heq, handleClose_eq]
  refine ⟨rfl, rfl, ?_, ?_, rfl, ?_, ?_, rfl, rfl⟩
  · simp [Channel.isWriting, kNoneEvent]
  · simp [Channel.isReading, kNoneEvent]
  · rw [count_append_fresh]; rfl
  · rw [count_append_fresh]; rfl

/-- Witness of C9: the peer closes while "llo" is still pending and writable
interest is registered. -/
theorem haneleRead_zero_witness :
    ((send true "hello".toList { ret := 2 }
        (connectEstablished (World.init true false 1024))).conn.state_ = StateE.kConnected
      ∨ (send true "hello".toList { ret := 2 }
        (connectEstablished (World.init true false 1024))).conn.state_ = StateE.kDisconnecting)
    ∧ (send true "hello".toList { ret := 2 }
        (connectEstablished (World.init true false 1024))).conn.channel_.isWriting = true
    ∧ (haneleRead { ret := 0 } { ret := 0 } 7
        (send true "hello".toList { ret := 2 }
          (connectEstablished (World.init true false 1024)))).conn.state_
        = StateE.kDisconnected :=
  ⟨Or.inl (by decide), by decide,
   (haneleRead_zero
      (send true "hello".toList { ret := 2 } (connectEstablished (World.init true false 1024)))
      { ret := 0 } { ret := 0 } 7 rfl).1⟩

/-- C10, as stated, fails: on an established connection a read that fails with
`ECONNRESET` leaves the state Connected and the read interest registered, and
no close callback is invoked. -/
theorem haneleRead_error_counterexample :
    (haneleRead { ret := -1, errno := ECONNRESET } { ret := 0, optval := ECONNRESET } 7
        (connectEstablished (World.init false false 1024))).conn.state_ = StateE.kConnected
    ∧ (haneleRead { ret := -1, errno := ECONNRESET } { ret := 0, optval := ECONNRESET } 7
        (connectEstablished (World.init false false 1024))).conn.channel_.isReading = true
    ∧ countEffect Effect.closeCallback
        (haneleRead { ret := -1, errno := ECONNRESET } { ret := 0, optval := ECONNRESET } 7
          (connectEstablished (World.init false false 1024))).trace = 0 := by
  decide

/-- C10, amended. A readable dispatch (`haneleRead`) whose read fails (negative
result) records the error and does nothing else: two error lines are logged,
the second with the pending socket error read by `getsockopt` (or `errno` when
that call fails); the connection (state, interest flags, both buffers) and the
loop's queue are unchanged, and no callback is invoked. -/
theorem haneleRead_error (w : World) (rd : ReadResult) (so : SockOptResult)
    (receiveTime : Timestamp) (hneg : rd.ret < 0) :
    (haneleRead rd so receiveTime w).conn = w.conn
    ∧ (haneleRead rd so receiveTime w).pendingFunctors_ = w.pendingFunctors_
    ∧ (haneleRead rd so receiveTime w).trace
        = w.trace ++ [Effect.logError ErrorLine.handleRead,
            Effect.logError (ErrorLine.handleError (if so.ret < 0 then so.errno else so.optval))] := by
  have h1 : ¬ rd.ret > 0 := by omega
  have h2 : ¬ rd.ret = 0 := by omega
  unfold haneleRead
  simp [h1, h2, Buffer.readFd, handleError, logError, World.emit]

/-- Witness of C10, amended: a connection-reset read error on an established
connection leaves the connection as it was. -/
theorem haneleRead_error_witness :
    ((-1 : Int) < 0)
    ∧ (haneleRead { ret := -1, errno := ECONNRESET } { ret := 0, optval := ECONNRESET } 7
        (connectEstablished (World.init false false 1024))).conn
      = (connectEstablished (World.init false false 1024)).conn :=
  ⟨by decide,
   (haneleRead_error (connectEstablished (World.init false false 1024))
      { ret := -1, errno := ECONNRESET } { ret := 0, optval := ECONNRESET } 7 (by decide)).1⟩

/-! ## The shape of `sendInLoop` -/

theorem buffer_step_skip (data : List Char) (v : SendLocals) (w : World)
    (h : v.faultError = true ∨ v.remaining = 0) :
    sendInLoop.buffer data v w = w := by
  unfold sendInLoop.buffer
  rcases h with h | h <;> simp [h]

theorem directWrite_fail (data : List Char) (wr : SysResult) (w : World) (h : wr.ret < 0) :
    sendInLoop.directWrite data wr w =
      ({ nwrote := 0
         remaining := data.length
         faultError := decide (wr.errno ≠ EWOULDBLOCK ∧ (wr.errno = EPIPE ∨ wr.errno = ECONNRESET)) },
       { conn := w.conn
         pendingFunctors_ := w.pendingFunctors_
         trace := w.trace ++ [Effect.sysWrite data wr.ret] ++
           (if wr.errno ≠ EWOULDBLOCK then [Effect.logError ErrorLine.sendInLoop] else []) }) := by
  unfold sendInLoop.directWrite
  have h1 : ¬ wr.ret ≥ 0 := by omega
  dsimp only
  rw [if_neg h1]
  by_cases h2 : wr.errno = EWOULDBLOCK
  · simp [h2, World.emit]
  · by_cases h3 : wr.errno = EPIPE ∨ wr.errno = ECONNRESET
    · simp [h2, h3, World.emit, logError]
    · simp [h2, h3, World.emit, logError]

/-- What a call of `sendInLoop` comes to: either the connection is left as it
was and at most a write-complete task is queued, or the tail `data[k:]`, not
empty, goes through the buffering step. -/
theorem sendInLoop_shape (data : List Char) (wr : SysResult) (w : World)
    (hlen : data.length < SIZE_MOD) (hok : wr.okForWrite data.length) :
    ((sendInLoop data wr w).conn = w.conn
      ∧ ∃ q, (sendInLoop data wr w).pendingFunctors_ = w.pendingFunctors_ ++ q
          ∧ (q = [] ∨ q = [PendingFunctor.writeCompleteCallback]))
    ∨ (∃ (k : Nat) (es : List Effect), k < data.length
        ∧ w.conn.state_ ≠ StateE.kDisconnected
        ∧ sendInLoop data wr w =
            sendInLoop.buffer data
              { nwrote := (k : Int), remaining := data.length - k, faultError := false }
              { conn := w.conn, pendingFunctors_ := w.pendingFunctors_,
                trace := w.trace ++ es }) := by
  by_cases hst : w.conn.state_ = StateE.kDisconnected
  · left
    unfold sendInLoop
    simp [hst, logError, World.emit]
  by_cases hfast : w.conn.channel_.isWriting = false ∧ w.conn.outputBuffer_.bytes = []
  · rw [sendInLoop_fast data wr w hst hfast.1 hfast.2]
    by_cases hneg : wr.ret < 0
    · rw [directWrite_fail data wr w hneg]
      dsimp only
      by_cases hfault : wr.errno ≠ EWOULDBLOCK ∧ (wr.errno = EPIPE ∨ wr.errno = ECONNRESET)
      · left
        rw [buffer_step_skip _ _ _ (Or.inl (by simp [hfault]))]
        exact ⟨rfl, [], by simp, Or.inl rfl⟩
      · by_cases hz : data.length = 0
        · left
          rw [buffer_step_skip _ _ _ (Or.inr hz)]
          exact ⟨rfl, [], by simp, Or.inl rfl⟩
        · right
          refine ⟨0, [Effect.sysWrite data wr.ret] ++
            (if wr.errno ≠ EWOULDBLOCK then [Effect.logError ErrorLine.sendInLoop] else []),
            Nat.pos_of_ne_zero hz, hst, ?_⟩
          simp [hfault]
    · have hnn : 0 ≤ wr.ret := by omega
      have hle : wr.ret ≤ (data.length : Int) := by
        rcases hok with h | h
        · omega
        · exact h.2
      rw [directWrite_ok data wr w hnn]
      dsimp only
      obtain ⟨k, hk⟩ := Int.eq_ofNat_of_zero_le hnn
      have hkle : k ≤ data.length := by omega
      have hrem : (((data.length : Int) - wr.ret) % (SIZE_MOD : Int)).toNat = data.length - k := by
        rw [hk]; exact remaining_eq data.length k hkle hlen
      rw [hrem]
      by_cases hz : data.length - k = 0
      · left
        rw [buffer_step_skip _ _ _ (Or.inr hz)]
        refine ⟨rfl, _, rfl, ?_⟩
        by_cases hc : w.conn.writeCompleteCallback_ = true <;> simp [hz, hc]
      · right
        refine ⟨k, [Effect.sysWrite data wr.ret], by omega, hst, ?_⟩
        simp [hz, hk]
  · have hback : w.conn.channel_.isWriting = true ∨ w.conn.outputBuffer_.bytes ≠ [] := by
      by_cases h1 : w.conn.channel_.isWriting = true
      · exact Or.inl h1
      · right
        intro h2
        exact hfast ⟨by simpa using h1, h2⟩
    rw [sendInLoop_backlog data wr w hst hback]
    by_cases hz : data.length = 0
    · left
      rw [buffer_step_skip _ _ _ (Or.inr hz)]
      exact ⟨rfl, [], by simp, Or.inl rfl⟩
    · right
      refine ⟨0, [], Nat.pos_of_ne_zero hz, hst, ?_⟩
      simp

/-! ## The high-water mark -/

/-- The high-water-mark tasks of a queue, in order. -/
theorem countHighWater_append (q r : List PendingFunctor) :
    countHighWater (q ++ r) = countHighWater q + countHighWater r := by
  simp [countHighWater]

/-- What one call of `sendInLoop` does to the high-water-mark tasks in the
queue, in terms of the buffered size before and after. -/
theorem sendInLoop_highWater (data : List Char) (wr : SysResult) (w : World)
    (hlen : data.length < SIZE_MOD) (hok : wr.okForWrite data.length)
    (hfit : (sendInLoop data wr w).conn.outputBuffer_.bytes.length < SIZE_MOD) :
    ∃ q, countHighWater q = 0
      ∧ (sendInLoop data wr w).pendingFunctors_ = w.pendingFunctors_ ++ q ++
          (if w.conn.highWaterMarkCallback_ = true
              ∧ w.conn.outputBuffer_.bytes.length < w.conn.highWaterMark_
              ∧ w.conn.highWaterMark_ ≤ (sendInLoop data wr w).conn.outputBuffer_.bytes.length
            then [PendingFunctor.highWaterMarkCallback
                    (sendInLoop data wr w).conn.outputBuffer_.bytes.length]
            else []) := by
  rcases sendInLoop_shape data wr w hlen hok with ⟨hconn, q, hq, hq2⟩ | ⟨k, es, hk, _, heq⟩
  · refine ⟨q, ?_, ?_⟩
    · rcases hq2 with h | h <;> simp [h, countHighWater]
    · rw [hconn]
      have : ¬ (w.conn.outputBuffer_.bytes.length < w.conn.highWaterMark_
          ∧ w.conn.highWaterMark_ ≤ w.conn.outputBuffer_.bytes.length) := by omega
      rw [if_neg (fun h => this h.2)]
      simp [hq]
  · have hpos : 0 < data.length - k := by omega
    rw [heq, buffer_step_eq _ _ _ rfl hpos] at hfit ⊢
    dsimp only at hfit ⊢
    have hl : (w.conn.outputBuffer_.bytes
        ++ (data.drop ((k : Int).toNat)).take (data.length - k)).length
        = w.conn.outputBuffer_.bytes.length + (data.length - k) := by
      simp
    rw [hl] at hfit ⊢
    rw [Nat.mod_eq_of_lt hfit]
    refine ⟨[], rfl, ?_⟩
    by_cases h1 : w.conn.highWaterMarkCallback_ = true <;>
    by_cases h2 : w.conn.outputBuffer_.bytes.length < w.conn.highWaterMark_ <;>
    by_cases h3 : w.conn.highWaterMark_ ≤ w.conn.outputBuffer_.bytes.length + (data.length - k) <;>
    simp [h1, h2, h3]

theorem sendInLoop_highWater_count (data : List Char) (wr : SysResult) (w : World)
    (hlen : data.length < SIZE_MOD) (hok : wr.okForWrite data.length)
    (hfit : (sendInLoop data wr w).conn.outputBuffer_.bytes.length < SIZE_MOD) :
    countHighWater (sendInLoop data wr w).pendingFunctors_
      = countHighWater w.pendingFunctors_
        + (if w.conn.highWaterMarkCallback_ = true
              ∧ w.conn.outputBuffer_.bytes.length < w.conn.highWaterMark_
              ∧ w.conn.highWaterMark_ ≤ (sendInLoop data wr w).conn.outputBuffer_.bytes.length
           then 1 else 0) := by
  obtain ⟨q, hq0, hq⟩ := sendInLoop_highWater data wr w hlen hok hfit
  rw [hq, countHighWater_append, countHighWater_append, hq0]
  split_ifs <;> simp [countHighWater]

theorem buffer_step_callbacks (data : List Char) (v : SendLocals) (w : World) :
    (sendInLoop.buffer data v w).conn.highWaterMarkCallback_ = w.conn.highWaterMarkCallback_
    ∧ (sendInLoop.buffer data v w).conn.highWaterMark_ = w.conn.highWaterMark_
    ∧ (sendInLoop.buffer data v w).conn.writeCompleteCallback_ = w.conn.writeCompleteCallback_ := by
  unfold sendInLoop.buffer
  dsimp only
  split_ifs <;>
  simp [queueInLoop, World.setOutputBuffer, Channel.enableWriting, Channel.update,
    World.setEvents, World.emit]

theorem directWrite_conn (data : List Char) (wr : SysResult) (w : World) :
    (sendInLoop.directWrite data wr w).2.conn = w.conn := by
  unfold sendInLoop.directWrite
  dsimp only
  split_ifs <;> simp [queueInLoop, World.emit, logError]

theorem sendInLoop_callbacks (data : List Char) (wr : SysResult) (w : World) :
    (sendInLoop data wr w).conn.highWaterMarkCallback_ = w.conn.highWaterMarkCallback_
    ∧ (sendInLoop data wr w).conn.highWaterMark_ = w.conn.highWaterMark_
    ∧ (sendInLoop data wr w).conn.writeCompleteCallback_ = w.conn.writeCompleteCallback_ := by
  unfold sendInLoop
  dsimp only
  split_ifs
  · simp [logError, World.emit]
  · have h := buffer_step_callbacks data (sendInLoop.directWrite data wr w).1
      (sendInLoop.directWrite data wr w).2
    rw [directWrite_conn] at h
    exact h
  · exact buffer_step_callbacks data _ w

theorem handleWrite_highWater (wr : SysResult) (w : World) :
    countHighWater (handleWrite wr w).pendingFunctors_ = countHighWater w.pendingFunctors_
    ∧ (handleWrite wr w).conn.highWaterMarkCallback_ = w.conn.highWaterMarkCallback_
    ∧ (handleWrite wr w).conn.highWaterMark_ = w.conn.highWaterMark_ := by
  unfold handleWrite shutdownInloop
  dsimp only
  split_ifs <;>
  simp [queueInLoop, World.setOutputBuffer, Channel.disableWriting, Channel.update,
    World.setEvents, World.emit, logError, Buffer.writeFd, Socket.shutdownWrite,
    countHighWater]

/-- C8. The high-water-mark callback is edge-triggered. In one `sendInLoop`
call (in particular one that buffers a non-empty tail) the queue grows by
tasks that are not high-water-mark tasks and then by the high-water-mark task,
once and with the new buffered size `oldLen + remaining` as argument, exactly
when the callback is registered, the buffered size before the call is below
the mark and the buffered size after it is at or above the mark. Consequently,
with the callback registered, when the buffered size is below the mark after a
first send, at or above it after a second, below it again after a `handleWrite`
and at or above it after a third send, exactly two high-water-mark tasks have
been queued. Sizes are `size_t` values and `::write` keeps its contract. -/
theorem highWater_edge_triggered (data : List Char) (wr : SysResult) (w : World)
    (hlen : data.length < SIZE_MOD) (hok : wr.okForWrite data.length)
    (hfit : (sendInLoop data wr w).conn.outputBuffer_.bytes.length < SIZE_MOD) :
    (∃ q, countHighWater q = 0
      ∧ (sendInLoop data wr w).pendingFunctors_ = w.pendingFunctors_ ++ q ++
          (if w.conn.highWaterMarkCallback_ = true
              ∧ w.conn.outputBuffer_.bytes.length < w.conn.highWaterMark_
              ∧ w.conn.highWaterMark_ ≤ (sendInLoop data wr w).conn.outputBuffer_.bytes.length
            then [PendingFunctor.highWaterMarkCallback
                    (sendInLoop data wr w).conn.outputBuffer_.bytes.length]
            else []))
    ∧ countHighWater (sendInLoop data wr w).pendingFunctors_
        = countHighWater w.pendingFunctors_
          + (if w.conn.highWaterMarkCallback_ = true
                ∧ w.conn.outputBuffer_.bytes.length < w.conn.highWaterMark_
                ∧ w.conn.highWaterMark_ ≤ (sendInLoop data wr w).conn.outputBuffer_.bytes.length
             then 1 else 0)
    ∧ (∀ (d2 d3 : List Char) (r2 r3 r4 : SysResult),
        w.conn.highWaterMarkCallback_ = true →
        d2.length < SIZE_MOD → d3.length < SIZE_MOD →
        r2.okForWrite d2.length → r4.okForWrite d3.length →
        (sendInLoop data wr w).conn.outputBuffer_.bytes.length < w.conn.highWaterMark_ →
        w.conn.highWaterMark_
          ≤ (sendInLoop d2 r2 (sendInLoop data wr w)).conn.outputBuffer_.bytes.length →
        (sendInLoop d2 r2 (sendInLoop data wr w)).conn.outputBuffer_.bytes.length < SIZE_MOD →
        (handleWrite r3 (sendInLoop d2 r2 (sendInLoop data wr w))).conn.outputBuffer_.bytes.length
          < w.conn.highWaterMark_ →
        w.conn.highWaterMark_
          ≤ (sendInLoop d3 r4 (handleWrite r3
              (sendInLoop d2 r2 (sendInLoop data wr w)))).conn.outputBuffer_.bytes.length →
        (sendInLoop d3 r4 (handleWrite r3
              (sendInLoop d2 r2 (sendInLoop data wr w)))).conn.outputBuffer_.bytes.length
          < SIZE_MOD →
        countHighWater (sendInLoop d3 r4 (handleWrite r3
              (sendInLoop d2 r2 (sendInLoop data wr w)))).pendingFunctors_
          = countHighWater w.pendingFunctors_ + 2) := by
  refine ⟨sendInLoop_highWater data wr w hlen hok hfit,
    sendInLoop_highWater_count data wr w hlen hok hfit, ?_⟩
  intro d2 d3 r2 r3 r4 hreg hd2 hd3 hr2 hr4 h1 h2 h2fit h3 h4 h4fit
  have c1 := sendInLoop_highWater_count data wr w hlen hok hfit
  have c2 := sendInLoop_highWater_count d2 r2 (sendInLoop data wr w) hd2 hr2 h2fit
  have c3 := handleWrite_highWater r3 (sendInLoop d2 r2 (sendInLoop data wr w))
  have c4 := sendInLoop_highWater_count d3 r4
    (handleWrite r3 (sendInLoop d2 r2 (sendInLoop data wr w))) hd3 hr4 h4fit
  have k1 := sendInLoop_callbacks data wr w
  have k2 := sendInLoop_callbacks d2 r2 (sendInLoop data wr w)
  rw [c3.2.1, c3.2.2, k2.1, k2.2.1, k1.1, k1.2.1, c3.1, c2, k1.1, k1.2.1, c1] at c4
  rw [c4]
  have n1 : ¬ (w.conn.highWaterMarkCallback_ = true
      ∧ w.conn.outputBuffer_.bytes.length < w.conn.highWaterMark_
      ∧ w.conn.highWaterMark_ ≤ (sendInLoop data wr w).conn.outputBuffer_.bytes.length) := by
    intro h; omega
  rw [if_neg n1, if_pos ⟨hreg, h1, h2⟩, if_pos ⟨hreg, h3, h4⟩]

/-- Witness of C8: mark 4, callback registered. "ab" is buffered whole (2 < 4),
"cde" joins it (5 ≥ 4, first task), a write of 3 bytes leaves "de" (2 < 4),
"fgh" joins it (5 ≥ 4, second task). -/
theorem highWater_edge_triggered_witness :
    "ab".toList.length < SIZE_MOD
    ∧ (sendInLoop "fgh".toList { ret := 0 } (handleWrite { ret := 3 }
          (sendInLoop "cde".toList { ret := 0 } (sendInLoop "ab".toList { ret := 0 }
            (connectEstablished (World.init false true 4)))))).pendingFunctors_
        = [PendingFunctor.highWaterMarkCallback 5, PendingFunctor.highWaterMarkCallback 5]
    ∧ countHighWater (sendInLoop "fgh".toList { ret := 0 } (handleWrite { ret := 3 }
          (sendInLoop "cde".toList { ret := 0 } (sendInLoop "ab".toList { ret := 0 }
            (connectEstablished (World.init false true 4)))))).pendingFunctors_
        = countHighWater (connectEstablished (World.init false true 4)).pendingFunctors_ + 2 :=
  ⟨by unfold SIZE_MOD; decide, by decide,
   (highWater_edge_triggered "ab".toList { ret := 0 }
      (connectEstablished (World.init false true 4))
      (by unfold SIZE_MOD; decide) (by decide) (by unfold SIZE_MOD; decide)).2.2
      "cde".toList "fgh".toList { ret := 0 } { ret := 3 } { ret := 0 }
      (by decide) (by unfold SIZE_MOD; decide) (by unfold SIZE_MOD; decide)
      (by decide) (by decide) (by decide) (by decide) (by unfold SIZE_MOD; decide)
      (by decide) (by decide) (by unfold SIZE_MOD; decide)⟩

/-! ## The drain: `handleWrite` case by case -/

theorem handleWrite_idle (wr : SysResult) (w : World)
    (hnow : w.conn.channel_.isWriting = false) :
    handleWrite wr w =
      { conn := w.conn, pendingFunctors_ := w.pendingFunctors_,
        trace := w.trace ++ [Effect.logError ErrorLine.noMoreWriting] } := by
  unfold handleWrite
  simp [hnow, logError, World.emit]

theorem handleWrite_fail (wr : SysResult) (w : World)
    (hw : w.conn.channel_.isWriting = true) (hret : wr.ret ≤ 0) :
    handleWrite wr w =
      { conn := w.conn, pendingFunctors_ := w.pendingFunctors_,
        trace := w.trace ++ [Effect.sysWrite w.conn.outputBuffer_.bytes wr.ret,
          Effect.logError ErrorLine.handleWrite] } := by
  unfold handleWrite
  have h : ¬ wr.ret > 0 := by omega
  simp [hw, h, logError, World.emit, Buffer.writeFd]

theorem handleWrite_rest (wr : SysResult) (w : World)
    (hw : w.conn.channel_.isWriting = true) (hret : 0 < wr.ret)
    (hrest : w.conn.outputBuffer_.bytes.drop wr.ret.toNat ≠ []) :
    handleWrite wr w =
      { conn := { w.conn with
                  outputBuffer_ := { bytes := w.conn.outputBuffer_.bytes.drop wr.ret.toNat } }
        pendingFunctors_ := w.pendingFunctors_
        trace := w.trace ++ [Effect.sysWrite w.conn.outputBuffer_.bytes wr.ret] } := by
  unfold handleWrite
  have hlen : ¬ (w.conn.outputBuffer_.bytes.drop wr.ret.toNat).length = 0 := by
    intro h; exact hrest (List.length_eq_zero.mp h)
  simp only [List.length_drop] at hlen
  simp [hw, hret, World.emit, Buffer.writeFd, World.setOutputBuffer, Buffer.retrieve,
    Buffer.readableBytes, hlen]

theorem handleWrite_drain (wr : SysResult) (w : World)
    (hw : w.conn.channel_.isWriting = true) (hret : 0 < wr.ret)
    (hrest : w.conn.outputBuffer_.bytes.drop wr.ret.toNat = []) :
    handleWrite wr w =
      { conn := { w.conn with
                  outputBuffer_ := { bytes := [] }
                  channel_ := { w.conn.channel_ with
                    events_ := w.conn.channel_.events_ &&& flagComplement kWriteEvent } }
        pendingFunctors_ := w.pendingFunctors_ ++
          (if w.conn.writeCompleteCallback_ = true then [PendingFunctor.writeCompleteCallback]
           else [])
        trace := w.trace ++ [Effect.sysWrite w.conn.outputBuffer_.bytes wr.ret,
            Effect.updateChannel (w.conn.channel_.events_ &&& flagComplement kWriteEvent)]
          ++ (if w.conn.state_ = StateE.kDisconnecting then [Effect.shutdownWrite] else []) } := by
  unfold handleWrite shutdownInloop
  have hlen : w.conn.outputBuffer_.bytes.length ≤ wr.ret.toNat := by
    have := congrArg List.length hrest
    simp only [List.length_drop, List.length_nil] at this
    omega
  by_cases hc : w.conn.writeCompleteCallback_ = true <;>
  by_cases hs : w.conn.state_ = StateE.kDisconnecting <;>
  simp [hw, hret, hc, hs, hrest, hlen, World.emit, Buffer.writeFd, World.setOutputBuffer,
    Buffer.retrieve, Buffer.readableBytes, Channel.disableWriting, Channel.update,
    World.setEvents, queueInLoop, Socket.shutdownWrite, isWriting_disable]

/-! ## The buffering invariant on every reachable world -/

theorem inv_frame (w w1 : World) (hinv : BufferingInv w)
    (hw : w1.conn.channel_.isWriting = w.conn.channel_.isWriting)
    (hb : w1.conn.outputBuffer_.bytes = w.conn.outputBuffer_.bytes)
    (hs : w1.conn.state_ ≠ StateE.kDisconnected → w.conn.state_ ≠ StateE.kDisconnected)
    (hq : ∀ len, PendingFunctor.sendInLoop len ∈ w1.pendingFunctors_ →
      PendingFunctor.sendInLoop len ∈ w.pendingFunctors_ ∨ len < SIZE_MOD) :
    BufferingInv w1 := by
  obtain ⟨i1, i2, i3⟩ := hinv
  refine ⟨?_, ?_, ?_⟩
  · rw [hw, hb]; exact i1
  · rw [hw, hb]; intro h; exact i2 (hs h)
  · intro data hd
    rcases hq data hd with h | h
    · exact i3 data h
    · exact h

theorem inv_closed (w w1 : World) (hinv : BufferingInv w)
    (hw : w1.conn.channel_.isWriting = false)
    (hs : w1.conn.state_ = StateE.kDisconnected)
    (hq : w1.pendingFunctors_ = w.pendingFunctors_) :
    BufferingInv w1 := by
  refine ⟨?_, ?_, ?_⟩
  · rw [hw]; intro h; exact absurd h (by decide)
  · intro h; exact absurd hs h
  · rw [hq]; exact hinv.2.2

theorem inv_init (writeComplete highWater : Bool) (mark : Nat) :
    BufferingInv (World.init writeComplete highWater mark) := by
  have hw : (World.init writeComplete highWater mark).conn.channel_.isWriting = false := by
    show ({} : Channel).isWriting = false
    decide
  refine ⟨?_, ?_, ?_⟩
  · rw [hw]; intro h; exact absurd h (by decide)
  · intro _ h; exact absurd rfl h
  · intro data h; exact absurd h (by simp [World.init])

theorem inv_sendInLoop (data : List Char) (wr : SysResult) (w : World)
    (hinv : BufferingInv w) (hlen : data.length < SIZE_MOD) (hok : wr.okForWrite data.length) :
    BufferingInv (sendInLoop data wr w) := by
  rcases sendInLoop_shape data wr w hlen hok with ⟨hconn, q, hq, hq2⟩ | ⟨k, es, hk, hst, heq⟩
  · apply inv_frame w _ hinv (by rw [hconn]) (by rw [hconn]) (by rw [hconn]; exact id)
    intro d hd
    left
    rw [hq] at hd
    rcases hq2 with h | h <;> simpa [h] using hd
  · have hpos : 0 < data.length - k := by omega
    rw [heq, buffer_step_eq _ _ _ rfl hpos]
    dsimp only
    have htail : (data.drop ((k : Int).toNat)).take (data.length - k) ≠ [] := by
      intro h
      have := congrArg List.length h
      simp at this
      omega
    refine ⟨?_, ?_, ?_⟩
    · intro _ h
      exact htail (List.append_eq_nil.mp h).2
    · intro _ _
      by_cases hw : w.conn.channel_.isWriting = true
      · simp [hw]
      · simp [hw, isWriting_enable]
    · intro d hd
      apply hinv.2.2 d
      dsimp only at hd
      split_ifs at hd <;> simpa using hd

theorem inv_shutdownInloop (w : World) (hinv : BufferingInv w) :
    BufferingInv (shutdownInloop w) := by
  unfold shutdownInloop
  split_ifs
  · exact inv_frame w _ hinv rfl rfl id (fun _ h => Or.inl h)
  · exact hinv

theorem inv_handleWrite (wr : SysResult) (w : World) (hinv : BufferingInv w) :
    BufferingInv (handleWrite wr w) := by
  by_cases hw : w.conn.channel_.isWriting = true
  · by_cases hret : 0 < wr.ret
    · by_cases hrest : w.conn.outputBuffer_.bytes.drop wr.ret.toNat = []
      · rw [handleWrite_drain wr w hw hret hrest]
        refine ⟨?_, ?_, ?_⟩
        · intro h
          dsimp only at h
          rw [isWriting_disable] at h
          exact absurd h (by decide)
        · intro _ h; exact absurd rfl h
        · intro d hd
          apply hinv.2.2 d
          dsimp only at hd
          split_ifs at hd <;> simpa using hd
      · rw [handleWrite_rest wr w hw hret hrest]
        refine ⟨fun _ => hrest, fun _ _ => hw, hinv.2.2⟩
    · rw [handleWrite_fail wr w hw (by omega)]
      exact inv_frame w _ hinv rfl rfl id (fun _ h => Or.inl h)
  · rw [handleWrite_idle wr w (by simpa using hw)]
    exact inv_frame w _ hinv rfl rfl id (fun _ h => Or.inl h)

theorem inv_handleClose (w : World) (hinv : BufferingInv w) :
    BufferingInv (handleClose w) := by
  rw [handleClose_eq]
  exact inv_closed w _ hinv (isWriting_none _) rfl rfl

theorem inv_step (op : Op) (w : World) (hinv : BufferingInv w) (hadm : op.admissible w) :
    BufferingInv (step op w) := by
  cases op with
  | connectEstablished =>
    have hst : w.conn.state_ = StateE.kConnecting := hadm
    apply inv_frame w _ hinv
    · simp only [step, connectEstablished, connectionCallback, Channel.enableReading,
        Channel.update, World.setEvents, World.emit, setState, Channel.tie]
      exact isWriting_enableReading _ _
    · rfl
    · intro _; rw [hst]; decide
    · intro d hd; exact Or.inl hd
  | connectDestroyed =>
    simp only [step, connectDestroyed]
    split_ifs with hc
    · exact inv_closed w _ hinv (isWriting_none _) rfl rfl
    · exact inv_frame w _ hinv rfl rfl id (fun _ h => Or.inl h)
  | shutdown isInLoopThread =>
    simp only [step, shutdown]
    split_ifs with hc
    · have h1 : BufferingInv (setState StateE.kDisconnecting w) :=
        inv_frame w _ hinv rfl rfl (fun _ => by rw [hc]; decide) (fun _ h => Or.inl h)
      cases isInLoopThread
      · refine inv_frame (setState StateE.kDisconnecting w) _ h1 ?_ ?_ ?_ ?_
        · rfl
        · rfl
        · exact id
        · intro d hd
          left
          simpa [runInLoop, queueInLoop] using hd
      · exact inv_shutdownInloop _ h1
    · exact hinv
  | send isInLoopThread buf wr =>
    have hlen : buf.length < SIZE_MOD := hadm.1
    have hok : wr.okForWrite buf.length := hadm.2
    simp only [step, send]
    split_ifs with hc hl
    · exact inv_sendInLoop buf wr w hinv hlen hok
    · apply inv_frame w _ hinv
      · simp [runInLoop, hl, queueInLoop]
      · simp [runInLoop, hl, queueInLoop]
      · simp [runInLoop, hl, queueInLoop]
      · intro d hd
        have hq : (runInLoop isInLoopThread (sendInLoop buf wr)
            (PendingFunctor.sendInLoop buf.length) w).pendingFunctors_
            = w.pendingFunctors_ ++ [PendingFunctor.sendInLoop buf.length] := by
          simp [runInLoop, hl, queueInLoop]
        rw [hq] at hd
        rcases List.mem_append.mp hd with h | h
        · exact Or.inl h
        · right
          have hd2 : d = buf.length := by
            have := List.mem_singleton.mp h
            injection this
          rw [hd2]; exact hlen
    · exact hinv
  | haneleRead rd so receiveTime =>
    simp only [step, haneleRead]
    split_ifs
    · exact inv_frame w _ hinv rfl rfl id (fun _ h => Or.inl h)
    · apply inv_handleClose
      exact inv_frame w _ hinv rfl rfl id (fun _ h => Or.inl h)
    · exact inv_frame w _ hinv rfl rfl id (fun _ h => Or.inl h)
  | handleWrite wr => exact inv_handleWrite wr w hinv
  | handleClose => exact inv_handleClose w hinv
  | handleError so => exact inv_frame w _ hinv rfl rfl id (fun _ h => Or.inl h)
  | doPendingFunctor wr mem =>
    simp only [step, doPendingFunctor]
    cases hq : w.pendingFunctors_ with
    | nil => exact hinv
    | cons f rest =>
      have h0 : BufferingInv { w with pendingFunctors_ := rest } := by
        refine inv_frame w _ hinv ?_ ?_ ?_ ?_
        · rfl
        · rfl
        · exact id
        · intro d hd
          left
          rw [hq]
          exact List.mem_cons_of_mem _ hd
      cases f with
      | sendInLoop len =>
        have hlen : len < SIZE_MOD := by
          apply hinv.2.2 len
          rw [hq]; exact List.mem_cons_self _ _
        have hadm2 : len ≤ mem.length ∧ wr.okForWrite len := by
          have := hadm
          simp only [Op.admissible, hq] at this
          exact this
        have hl : (mem.take len).length = len := by
          rw [List.length_take]; exact Nat.min_eq_left hadm2.1
        exact inv_sendInLoop (mem.take len) wr _ h0 (by rw [hl]; exact hlen)
          (by rw [hl]; exact hadm2.2)
      | shutdownInloop => exact inv_shutdownInloop _ h0
      | writeCompleteCallback => exact inv_frame _ _ h0 rfl rfl id (fun _ h => Or.inl h)
      | highWaterMarkCallback len => exact inv_frame _ _ h0 rfl rfl id (fun _ h => Or.inl h)

theorem reachable_inv (w : World) (h : Reachable w) : BufferingInv w := by
  induction h with
  | init writeComplete highWater mark => exact inv_init writeComplete highWater mark
  | step op _ hadm ih => exact inv_step op _ ih hadm

/-! ## Shutdown and the deferred half-close -/

theorem reachable_established (writeComplete highWater : Bool) (mark : Nat) :
    Reachable (step Op.connectEstablished (World.init writeComplete highWater mark)) :=
  Reachable.step Op.connectEstablished (Reachable.init writeComplete highWater mark)
    (by show _ = _; rfl)

theorem reachable_hello_pending :
    Reachable (step (Op.send true "hello".toList { ret := 2 })
      (step Op.connectEstablished (World.init true false 1024))) :=
  Reachable.step _ (reachable_established true false 1024)
    (by show _ ∧ _; exact ⟨by unfold SIZE_MOD; decide, by decide⟩)

theorem closed_append (tr rest : List Effect) :
    closedNotifications (tr ++ rest) = closedNotifications tr + closedNotifications rest := by
  simp [closedNotifications, countEffect]

theorem connectDestroyed_connected (w : World) (h : w.conn.state_ = StateE.kConnected) :
    connectDestroyed w =
      { conn := { w.conn with
                  state_ := StateE.kDisconnected
                  channel_ := { w.conn.channel_ with events_ := kNoneEvent } }
        pendingFunctors_ := w.pendingFunctors_
        trace := w.trace ++ [Effect.updateChannel kNoneEvent,
          Effect.connectionCallback StateE.kDisconnected, Effect.removeChannel] } := by
  simp [connectDestroyed, h, connectionCallback, Channel.diableAll, Channel.update,
    World.setEvents, World.emit, setState, Channel.remove]

theorem connectDestroyed_other (w : World) (h : w.conn.state_ ≠ StateE.kConnected) :
    connectDestroyed w =
      { conn := w.conn, pendingFunctors_ := w.pendingFunctors_,
        trace := w.trace ++ [Effect.removeChannel] } := by
  simp [connectDestroyed, h, World.emit, Channel.remove]

theorem shutdown_connected (isInLoopThread : Bool) (w : World)
    (h : w.conn.state_ = StateE.kConnected) :
    (shutdown isInLoopThread w).conn = { w.conn with state_ := StateE.kDisconnecting }
    ∧ closedNotifications (shutdown isInLoopThread w).trace = closedNotifications w.trace := by
  unfold shutdown runInLoop shutdownInloop
  cases isInLoopThread
  · simp [h, queueInLoop, setState]
  · by_cases hw : w.conn.channel_.isWriting = true
    · simp [h, hw, setState]
    · simp [h, hw, setState, Socket.shutdownWrite, World.emit, closed_append]
      simp [closedNotifications, countEffect]

/-- C11, as stated, fails on its third path: on an established connection
`shutdown()` followed by `connectDestroyed` delivers no closed notification at
all, and leaves the state Disconnecting. -/
theorem closed_once_counterexample :
    (connectEstablished (World.init false false 1024)).conn.state_ = StateE.kConnected
    ∧ closedNotifications
        (connectDestroyed (shutdown true (connectEstablished (World.init false false 1024)))).trace
        = 0
    ∧ (connectDestroyed (shutdown true
        (connectEstablished (World.init false false 1024)))).conn.state_
        = StateE.kDisconnecting := by
  decide

/-- C11, amended. On an established (Connected) connection the closed
notification, the connection callback observed with state Disconnected, is
delivered exactly once on the teardown paths `connectDestroyed` directly and
`handleClose` followed by `connectDestroyed`, the latter also after
`shutdown()`. After `shutdown()` followed directly by `connectDestroyed`, with
no `handleClose` in between, none is delivered: `connectDestroyed` fires the
notification only when it is entered in state Connected. -/
theorem closed_once (w : World) (hstate : w.conn.state_ = StateE.kConnected) :
    closedNotifications (connectDestroyed w).trace = closedNotifications w.trace + 1
    ∧ closedNotifications (connectDestroyed (handleClose w)).trace
        = closedNotifications w.trace + 1
    ∧ (∀ isInLoopThread : Bool,
        closedNotifications (connectDestroyed (handleClose (shutdown isInLoopThread w))).trace
          = closedNotifications w.trace + 1)
    ∧ (∀ isInLoopThread : Bool,
        closedNotifications (connectDestroyed (shutdown isInLoopThread w)).trace
          = closedNotifications w.trace) := by
  have hclose : ∀ v : World, closedNotifications (connectDestroyed (handleClose v)).trace
      = closedNotifications v.trace + 1 := by
    intro v
    have hd : (handleClose v).conn.state_ ≠ StateE.kConnected := by
      rw [handleClose_state]; decide
    rw [connectDestroyed_other _ hd, handleClose_eq]
    dsimp only
    rw [closed_append, closed_append]
    simp [closedNotifications, countEffect]
  refine ⟨?_, hclose w, ?_, ?_⟩
  · rw [connectDestroyed_connected w hstate]
    dsimp only
    rw [closed_append]
    simp [closedNotifications, countEffect]
  · intro isInLoopThread
    rw [hclose, (shutdown_connected isInLoopThread w hstate).2]
  · intro isInLoopThread
    have hd : (shutdown isInLoopThread w).conn.state_ ≠ StateE.kConnected := by
      rw [(shutdown_connected isInLoopThread w hstate).1]
      intro h; exact StateE.noConfusion h
    rw [connectDestroyed_other _ hd]
    dsimp only
    rw [closed_append, (shutdown_connected isInLoopThread w hstate).2]
    simp [closedNotifications, countEffect]

/-- Witness of C11, amended: an established connection torn down directly. -/
theorem closed_once_witness :
    (connectEstablished (World.init false false 1024)).conn.state_ = StateE.kConnected
    ∧ closedNotifications
        (connectDestroyed (connectEstablished (World.init false false 1024))).trace = 1 :=
  ⟨rfl, (closed_once (connectEstablished (World.init false false 1024)) rfl).1.trans
    (by decide)⟩

/-! ## The drain, as the claims word it -/

theorem countWriteComplete_append (q r : List PendingFunctor) :
    countWriteComplete (q ++ r) = countWriteComplete q + countWriteComplete r := by
  simp [countWriteComplete]

/-- C12. `handleWrite` with writable interest registered, when the write of the
outbound buffer accepts `n > 0` bytes: the buffer afterwards is the previous
content without its first `n` bytes. If that leaves it empty, writable interest
is off, the write-complete task is queued exactly once when the callback is
registered and not otherwise, and `shutdownWrite` is performed exactly when the
state is Disconnecting. If it is not empty, nothing but the buffer changes and
nothing is queued. In particular after `send("hello")` with a 2-byte write the
buffer holds "llo", and a `handleWrite` that writes 3 bytes empties it, queues
write-complete once and turns writable interest off. -/
theorem handleWrite_accepts (w : World) (wr : SysResult)
    (hw : w.conn.channel_.isWriting = true) (hret : 0 < wr.ret) :
    (handleWrite wr w).conn.outputBuffer_.bytes = w.conn.outputBuffer_.bytes.drop wr.ret.toNat
    ∧ (w.conn.outputBuffer_.bytes.drop wr.ret.toNat = [] →
        (handleWrite wr w).conn.channel_.isWriting = false
        ∧ (handleWrite wr w).pendingFunctors_ = w.pendingFunctors_ ++
            (if w.conn.writeCompleteCallback_ = true then [PendingFunctor.writeCompleteCallback]
             else [])
        ∧ countWriteComplete (handleWrite wr w).pendingFunctors_
            = countWriteComplete w.pendingFunctors_
              + (if w.conn.writeCompleteCallback_ = true then 1 else 0)
        ∧ (handleWrite wr w).trace = w.trace
            ++ [Effect.sysWrite w.conn.outputBuffer_.bytes wr.ret,
                Effect.updateChannel (w.conn.channel_.events_ &&& flagComplement kWriteEvent)]
            ++ (if w.conn.state_ = StateE.kDisconnecting then [Effect.shutdownWrite] else [])
        ∧ countEffect Effect.shutdownWrite (handleWrite wr w).trace
            = countEffect Effect.shutdownWrite w.trace
              + (if w.conn.state_ = StateE.kDisconnecting then 1 else 0)
        ∧ (handleWrite wr w).conn.state_ = w.conn.state_)
    ∧ (w.conn.outputBuffer_.bytes.drop wr.ret.toNat ≠ [] →
        (handleWrite wr w).conn.channel_ = w.conn.channel_
        ∧ (handleWrite wr w).conn.state_ = w.conn.state_
        ∧ (handleWrite wr w).pendingFunctors_ = w.pendingFunctors_
        ∧ (handleWrite wr w).trace
            = w.trace ++ [Effect.sysWrite w.conn.outputBuffer_.bytes wr.ret])
    ∧ ((send true "hello".toList { ret := 2 }
          (connectEstablished (World.init true false 1024))).conn.outputBuffer_.bytes
          = "llo".toList
      ∧ (handleWrite { ret := 3 } (send true "hello".toList { ret := 2 }
          (connectEstablished (World.init true false 1024)))).conn.outputBuffer_.bytes = []
      ∧ (handleWrite { ret := 3 } (send true "hello".toList { ret := 2 }
          (connectEstablished (World.init true false 1024)))).pendingFunctors_
          = [PendingFunctor.writeCompleteCallback]
      ∧ (handleWrite { ret := 3 } (send true "hello".toList { ret := 2 }
          (connectEstablished (World.init true false 1024)))).conn.channel_.isWriting
          = false) := by
  refine ⟨?_, ?_, ?_, by decide⟩
  · by_cases hrest : w.conn.outputBuffer_.bytes.drop wr.ret.toNat = []
    · rw [handleWrite_drain wr w hw hret hrest, hrest]
    · rw [handleWrite_rest wr w hw hret hrest]
  · intro hrest
    rw [handleWrite_drain wr w hw hret hrest]
    dsimp only
    refine ⟨isWriting_disable _ _, rfl, ?_, rfl, ?_, rfl⟩
    · rw [countWriteComplete_append]
      split_ifs <;> simp [countWriteComplete]
    · rw [count_append_fresh, count_append_fresh]
      split_ifs <;> simp [countEffect]
  · intro hrest
    rw [handleWrite_rest wr w hw hret hrest]
    exact ⟨rfl, rfl, rfl, rfl⟩

/-- Witness of C12: "llo" pending in state Disconnecting; a write of 3 bytes
empties the buffer and the half-close is made. -/
theorem handleWrite_accepts_witness :
    (shutdown true (send true "hello".toList { ret := 2 }
        (connectEstablished (World.init true false 1024)))).conn.channel_.isWriting = true
    ∧ (handleWrite { ret := 3 } (shutdown true (send true "hello".toList { ret := 2 }
        (connectEstablished (World.init true false 1024))))).conn.outputBuffer_.bytes = []
    ∧ countEffect Effect.shutdownWrite
        (handleWrite { ret := 3 } (shutdown true (send true "hello".toList { ret := 2 }
          (connectEstablished (World.init true false 1024))))).trace = 1 :=
  ⟨by decide,
   (handleWrite_accepts (shutdown true (send true "hello".toList { ret := 2 }
        (connectEstablished (World.init true false 1024)))) { ret := 3 }
      (by decide) (by decide)).1.trans (by decide),
   ((handleWrite_accepts (shutdown true (send true "hello".toList { ret := 2 }
        (connectEstablished (World.init true false 1024)))) { ret := 3 }
      (by decide) (by decide)).2.1 (by decide)).2.2.2.2.1.trans (by decide)⟩

/-- C16. `handleWrite` changes nothing in two cases. Without writable interest
no write is attempted: the connection and the queue are as before and the
trace grows by one error line. With writable interest, when the write fails or
writes no bytes: the connection (state, outbound buffer, interest flags) and
the queue are as before, and the trace grows by the write and one error line.
In both cases no callback is queued and no half-close is made. -/
theorem handleWrite_nothing (w : World) (wr : SysResult)
    (h : w.conn.channel_.isWriting = false
      ∨ (w.conn.channel_.isWriting = true ∧ wr.ret ≤ 0)) :
    (handleWrite wr w).conn = w.conn
    ∧ (handleWrite wr w).pendingFunctors_ = w.pendingFunctors_
    ∧ countEffect Effect.shutdownWrite (handleWrite wr w).trace
        = countEffect Effect.shutdownWrite w.trace
    ∧ (w.conn.channel_.isWriting = false →
        (handleWrite wr w).trace = w.trace ++ [Effect.logError ErrorLine.noMoreWriting])
    ∧ (w.conn.channel_.isWriting = true →
        (handleWrite wr w).trace = w.trace
          ++ [Effect.sysWrite w.conn.outputBuffer_.bytes wr.ret,
              Effect.logError ErrorLine.handleWrite]) := by
  rcases h with h | ⟨h, hret⟩
  · rw [handleWrite_idle wr w h]
    refine ⟨rfl, rfl, ?_, fun _ => rfl, ?_⟩
    · dsimp only
      rw [count_append_fresh]
      simp [countEffect]
    · intro h2
      rw [h] at h2
      exact absurd h2 (by decide)
  · rw [handleWrite_fail wr w h hret]
    refine ⟨rfl, rfl, ?_, ?_, fun _ => rfl⟩
    · dsimp only
      rw [count_append_fresh]
      simp [countEffect]
    · intro h2
      rw [h] at h2
      exact absurd h2 (by decide)

/-- Witness of C16: a stray writable notification on a connection without
pending output. -/
theorem handleWrite_nothing_witness :
    (connectEstablished (World.init true false 1024)).conn.channel_.isWriting = false
    ∧ (handleWrite { ret := 5 } (connectEstablished (World.init true false 1024))).conn
        = (connectEstablished (World.init true false 1024)).conn
    ∧ (handleWrite { ret := 5 }
        (connectEstablished (World.init true false 1024))).pendingFunctors_ = [] :=
  ⟨by decide,
   (handleWrite_nothing (connectEstablished (World.init true false 1024)) { ret := 5 }
      (Or.inl (by decide))).1,
   (handleWrite_nothing (connectEstablished (World.init true false 1024)) { ret := 5 }
      (Or.inl (by decide))).2.1⟩

/-! ## Calls from another thread -/

/-- C15, as stated, fails for empty data: when the direct write of zero bytes
fails with would-block, nothing is buffered and writable interest is not
enabled. -/
theorem write_fails_counterexample :
    (connectEstablished (World.init false false 1024)).conn.channel_.isWriting = false
    ∧ (connectEstablished (World.init false false 1024)).conn.outputBuffer_.bytes = []
    ∧ (sendInLoop [] { ret := -1, errno := EWOULDBLOCK }
        (connectEstablished (World.init false false 1024))).conn.channel_.isWriting = false := by
  decide

/-- C15, amended. In `sendInLoop` on the fast path (not Disconnected, no
writable interest, outbound buffer empty), when the direct write fails: if the
error is would-block and `data` is not empty, all of `data` is appended to the
outbound buffer, writable interest is enabled and no error is logged; if the
error is would-block and `data` is empty, the connection is left as it was; if
the error is broken-pipe or connection-reset, the buffering step is
suppressed: the connection (outbound buffer, interest flags) and the queue are
unchanged, and the trace grows by the write and one error line. -/
theorem write_fails (w : World) (data : List Char) (wr : SysResult)
    (hstate : w.conn.state_ ≠ StateE.kDisconnected)
    (hnow : w.conn.channel_.isWriting = false)
    (hempty : w.conn.outputBuffer_.bytes = [])
    (hneg : wr.ret < 0) :
    (wr.errno = EWOULDBLOCK → data ≠ [] →
        (sendInLoop data wr w).conn.outputBuffer_.bytes = data
        ∧ (sendInLoop data wr w).conn.channel_.isWriting = true
        ∧ (sendInLoop data wr w).trace = w.trace
            ++ [Effect.sysWrite data wr.ret,
                Effect.updateChannel (w.conn.channel_.events_ ||| kWriteEvent)])
    ∧ (wr.errno = EWOULDBLOCK → data = [] →
        (sendInLoop data wr w).conn = w.conn
        ∧ (sendInLoop data wr w).pendingFunctors_ = w.pendingFunctors_)
    ∧ (wr.errno = EPIPE ∨ wr.errno = ECONNRESET →
        (sendInLoop data wr w).conn = w.conn
        ∧ (sendInLoop data wr w).pendingFunctors_ = w.pendingFunctors_
        ∧ (sendInLoop data wr w).trace = w.trace
            ++ [Effect.sysWrite data wr.ret, Effect.logError ErrorLine.sendInLoop]) := by
  rw [sendInLoop_fast data wr w hstate hnow hempty, directWrite_fail data wr w hneg]
  dsimp only
  refine ⟨?_, ?_, ?_⟩
  · intro hwb hdata
    have hpos : 0 < data.length := List.length_pos.mpr hdata
    have hf : decide (wr.errno ≠ EWOULDBLOCK ∧ (wr.errno = EPIPE ∨ wr.errno = ECONNRESET))
        = false := by simp [hwb]
    rw [hf, buffer_step_eq _ _ _ rfl hpos]
    dsimp only
    simp [hempty, hnow, hwb, isWriting_enable]
  · intro hwb hdata
    rw [buffer_step_skip _ _ _ (Or.inr (by simp [hdata]))]
    exact ⟨rfl, rfl⟩
  · intro hfault
    have hne : wr.errno ≠ EWOULDBLOCK := by
      rcases hfault with h | h <;> rw [h] <;> decide
    rw [buffer_step_skip _ _ _ (Or.inl (by simp [hne, hfault]))]
    simp [hne]

/-- Witness of C15, amended: a would-block failure buffers all of "hey"; a
broken pipe buffers nothing. -/
theorem write_fails_witness :
    (connectEstablished (World.init false false 1024)).conn.state_ ≠ StateE.kDisconnected
    ∧ (sendInLoop "hey".toList { ret := -1, errno := EWOULDBLOCK }
        (connectEstablished (World.init false false 1024))).conn.outputBuffer_.bytes
        = "hey".toList
    ∧ (sendInLoop "hey".toList { ret := -1, errno := EPIPE }
        (connectEstablished (World.init false false 1024))).conn
        = (connectEstablished (World.init false false 1024)).conn :=
  ⟨by decide,
   ((write_fails (connectEstablished (World.init false false 1024)) "hey".toList
      { ret := -1, errno := EWOULDBLOCK } (by decide) (by decide) rfl (by decide)).1
      rfl (by decide)).1,
   ((write_fails (connectEstablished (World.init false false 1024)) "hey".toList
      { ret := -1, errno := EPIPE } (by decide) (by decide) rfl (by decide)).2.2
      (Or.inl rfl)).1⟩

/-! ## Interest flags of a connection that is not in service -/

theorem acceptedBytes_append (a b : List Effect) :
    acceptedBytes (a ++ b) = acceptedBytes a ++ acceptedBytes b := by
  induction a with
  | nil => rfl
  | cons e a ih => simp [acceptedBytes, ih]

theorem handleWrite_conserves (wr : SysResult) (w : World) :
    acceptedBytes (handleWrite wr w).trace ++ (handleWrite wr w).conn.outputBuffer_.bytes
      = acceptedBytes w.trace ++ w.conn.outputBuffer_.bytes := by
  by_cases hw : w.conn.channel_.isWriting = true
  · by_cases hret : 0 < wr.ret
    · by_cases hrest : w.conn.outputBuffer_.bytes.drop wr.ret.toNat = []
      · rw [handleWrite_drain wr w hw hret hrest]
        dsimp only
        have htake : w.conn.outputBuffer_.bytes.take wr.ret.toNat = w.conn.outputBuffer_.bytes := by
          have := List.take_append_drop wr.ret.toNat w.conn.outputBuffer_.bytes
          rw [hrest, List.append_nil] at this
          exact this
        rw [acceptedBytes_append, acceptedBytes_append]
        split_ifs <;> simp [acceptedBytes, Effect.accepted, htake]
      · rw [handleWrite_rest wr w hw hret hrest]
        dsimp only
        rw [acceptedBytes_append]
        simp [acceptedBytes, Effect.accepted]
    · rw [handleWrite_fail wr w hw (by omega)]
      dsimp only
      have h0 : wr.ret.toNat = 0 := by omega
      rw [acceptedBytes_append]
      simp [acceptedBytes, Effect.accepted, h0]
  · rw [handleWrite_idle wr w (by simpa using hw)]
    dsimp only
    rw [acceptedBytes_append]
    simp [acceptedBytes, Effect.accepted]

theorem sendInLoop_conserves (data : List Char) (wr : SysResult) (w : World)
    (hst : w.conn.state_ ≠ StateE.kDisconnected)
    (hlen : data.length < SIZE_MOD) (hok : wr.wouldBlockOrCount data.length) :
    acceptedBytes (sendInLoop data wr w).trace ++ (sendInLoop data wr w).conn.outputBuffer_.bytes
      = acceptedBytes w.trace ++ w.conn.outputBuffer_.bytes ++ data := by
  by_cases hfast : w.conn.channel_.isWriting = false ∧ w.conn.outputBuffer_.bytes = []
  · obtain ⟨hnow, hempty⟩ := hfast
    rw [sendInLoop_fast data wr w hst hnow hempty]
    rcases hok with ⟨hret, hwb⟩ | ⟨hnn, hle⟩
    · have hneg : wr.ret < 0 := by omega
      have h0 : wr.ret.toNat = 0 := by omega
      have hf : decide (wr.errno ≠ EWOULDBLOCK ∧ (wr.errno = EPIPE ∨ wr.errno = ECONNRESET))
          = false := by simp [hwb]
      rw [directWrite_fail data wr w hneg]
      dsimp only
      rw [hf]
      by_cases hz : data.length = 0
      · rw [buffer_step_skip _ _ _ (Or.inr hz)]
        dsimp only
        have hd : data = [] := List.length_eq_zero.mp hz
        rw [acceptedBytes_append, acceptedBytes_append]
        simp [acceptedBytes, Effect.accepted, h0, hwb, hd, hempty]
      · rw [buffer_step_eq _ _ _ rfl (Nat.pos_of_ne_zero hz)]
        dsimp only
        rw [acceptedBytes_append, acceptedBytes_append, acceptedBytes_append]
        simp [acceptedBytes, Effect.accepted, h0, hwb, hempty, hnow]
    · obtain ⟨k, hk⟩ := Int.eq_ofNat_of_zero_le hnn
      have hkle : k ≤ data.length := by omega
      have hrem : (((data.length : Int) - wr.ret) % (SIZE_MOD : Int)).toNat = data.length - k := by
        rw [hk]; exact remaining_eq data.length k hkle hlen
      have hkn : wr.ret.toNat = k := by omega
      rw [directWrite_ok data wr w hnn]
      dsimp only
      rw [hrem]
      by_cases hz : data.length - k = 0
      · rw [buffer_step_skip _ _ _ (Or.inr hz)]
        dsimp only
        have htake : data.take k = data := List.take_of_length_le (by omega)
        rw [acceptedBytes_append]
        simp [acceptedBytes, Effect.accepted, hkn, htake, hempty]
      · rw [buffer_step_eq _ _ _ rfl (Nat.pos_of_ne_zero hz)]
        dsimp only
        rw [acceptedBytes_append, acceptedBytes_append]
        simp [acceptedBytes, Effect.accepted, hkn, hempty, hnow, drop_take_rest]
  · have hback : w.conn.channel_.isWriting = true ∨ w.conn.outputBuffer_.bytes ≠ [] := by
      by_cases h1 : w.conn.channel_.isWriting = true
      · exact Or.inl h1
      · right
        intro h2
        exact hfast ⟨by simpa using h1, h2⟩
    rw [sendInLoop_backlog data wr w hst hback]
    by_cases hz : data.length = 0
    · rw [buffer_step_skip _ _ _ (Or.inr hz)]
      have hd : data = [] := List.length_eq_zero.mp hz
      simp [hd]
    · rw [buffer_step_eq _ _ _ rfl (Nat.pos_of_ne_zero hz)]
      dsimp only
      rw [acceptedBytes_append]
      split_ifs <;> simp [acceptedBytes, Effect.accepted]

theorem runIo_conserves (ops : List IoOp) (w : World)
    (hst : w.conn.state_ ≠ StateE.kDisconnected) (hok : runOk ops w) :
    acceptedBytes (runIo ops w).trace ++ (runIo ops w).conn.outputBuffer_.bytes
        = acceptedBytes w.trace ++ w.conn.outputBuffer_.bytes ++ sentBytes ops
    ∧ (runIo ops w).conn.state_ = w.conn.state_ := by
  induction ops generalizing w with
  | nil => simp [runIo, sentBytes]
  | cons op ops ih =>
    obtain ⟨hop, hrest⟩ := hok
    have hstep : acceptedBytes (op.run w).trace ++ (op.run w).conn.outputBuffer_.bytes
          = acceptedBytes w.trace ++ w.conn.outputBuffer_.bytes ++ op.data
        ∧ (op.run w).conn.state_ = w.conn.state_ := by
      cases op with
      | sendInLoop data wr =>
        exact ⟨sendInLoop_conserves data wr w hst hop.1 hop.2, sendInLoop_state data wr w⟩
      | handleWrite wr =>
        refine ⟨?_, handleWrite_state wr w⟩
        simp only [IoOp.run, IoOp.data, List.append_nil]
        exact handleWrite_conserves wr w
    have hst1 : (op.run w).conn.state_ ≠ StateE.kDisconnected := by
      rw [hstep.2]; exact hst
    have h := ih (op.run w) hst1 hrest
    show acceptedBytes (runIo ops (op.run w)).trace
          ++ (runIo ops (op.run w)).conn.outputBuffer_.bytes
        = acceptedBytes w.trace ++ w.conn.outputBuffer_.bytes ++ sentBytes (op :: ops)
      ∧ (runIo ops (op.run w)).conn.state_ = w.conn.state_
    rw [h.1, h.2, hstep.1, hstep.2]
    simp [sentBytes]

/-- C17. Byte-stream conservation. From an established (Connected) connection
with an empty outbound buffer, after any sequence of `sendInLoop(d_1)` ..
`sendInLoop(d_k)` and `handleWrite` calls in any order, each write result
being a would-block failure or a count between 0 and the length offered (and
each `d_i` of a `size_t` length), the bytes the descriptor has accepted
followed by the content of the outbound buffer are the bytes accepted before
followed by `d_1 ++ ... ++ d_k`: nothing is lost, duplicated or reordered. On
a connection whose descriptor has accepted nothing yet that is
`d_1 ++ ... ++ d_k` itself. -/
theorem byte_stream_conserved (ops : List IoOp) (w : World)
    (hstate : w.conn.state_ = StateE.kConnected)
    (hempty : w.conn.outputBuffer_.bytes = [])
    (hok : runOk ops w) :
    acceptedBytes (runIo ops w).trace ++ (runIo ops w).conn.outputBuffer_.bytes
        = acceptedBytes w.trace ++ sentBytes ops
    ∧ (acceptedBytes w.trace = [] →
        acceptedBytes (runIo ops w).trace ++ (runIo ops w).conn.outputBuffer_.bytes
          = sentBytes ops)
    ∧ (runIo ops w).conn.state_ = StateE.kConnected := by
  have hst : w.conn.state_ ≠ StateE.kDisconnected := by
    rw [hstate]; intro h; exact StateE.noConfusion h
  have h := runIo_conserves ops w hst hok
  rw [hempty, List.append_nil] at h
  refine ⟨h.1, ?_, h.2.trans hstate⟩
  intro h0
  rw [h.1, h0, List.nil_append]

/-- Witness of C17: "hello" (2 bytes accepted), "wor" (queued behind "llo"),
a write of 4 bytes, "ld" (queued behind "or"), a would-block, a write of 4
bytes: "hellowor" and "ld" have been accepted and nothing is left. -/
theorem byte_stream_conserved_witness :
    runOk
      [IoOp.sendInLoop "hello".toList { ret := 2 }, IoOp.sendInLoop "wor".toList { ret := 0 },
       IoOp.handleWrite { ret := 4 }, IoOp.sendInLoop "ld".toList { ret := 0 },
       IoOp.handleWrite { ret := -1, errno := EWOULDBLOCK }, IoOp.handleWrite { ret := 4 }]
      (connectEstablished (World.init true false 1024))
    ∧ acceptedBytes (runIo
      [IoOp.sendInLoop "hello".toList { ret := 2 }, IoOp.sendInLoop "wor".toList { ret := 0 },
       IoOp.handleWrite { ret := 4 }, IoOp.sendInLoop "ld".toList { ret := 0 },
       IoOp.handleWrite { ret := -1, errno := EWOULDBLOCK }, IoOp.handleWrite { ret := 4 }]
      (connectEstablished (World.init true false 1024))).trace
      ++ (runIo
      [IoOp.sendInLoop "hello".toList { ret := 2 }, IoOp.sendInLoop "wor".toList { ret := 0 },
       IoOp.handleWrite { ret := 4 }, IoOp.sendInLoop "ld".toList { ret := 0 },
       IoOp.handleWrite { ret := -1, errno := EWOULDBLOCK }, IoOp.handleWrite { ret := 4 }]
      (connectEstablished (World.init true false 1024))).conn.outputBuffer_.bytes
      = "helloworld".toList :=
  ⟨by decide,
   ((byte_stream_conserved
      [IoOp.sendInLoop "hello".toList { ret := 2 }, IoOp.sendInLoop "wor".toList { ret := 0 },
       IoOp.handleWrite { ret := 4 }, IoOp.sendInLoop "ld".toList { ret := 0 },
       IoOp.handleWrite { ret := -1, errno := EWOULDBLOCK }, IoOp.handleWrite { ret := 4 }]
      (connectEstablished (World.init true false 1024)) rfl rfl
      (by decide)).2.1 (by decide)).trans (by decide)⟩

/-! ## The buffering invariant, operation by operation -/

/-- C18. Every operation of the connection (`connectEstablished`, `send` and
with it `sendInLoop`, `shutdown` and with it `shutdownInloop`, `handleWrite`,
`haneleRead`, `handleClose`, `handleError`, `connectDestroyed`, and a queued
task run by the loop), invoked as the surroundings invoke it
(`connectEstablished` once on the freshly constructed connection, `::write`
within its contract, lengths within `size_t`), preserves the invariant:
writable interest registered implies the outbound buffer is not empty, and,
while the state is not Disconnected, a non-empty outbound buffer implies
writable interest is registered (kept together with the side condition that
the sends waiting in the loop's queue have a `size_t` length). Under the
invariant, on a connection that is not Disconnected, the test of
`shutdownInloop` (no writable interest) holds exactly when no output is
pending. -/
theorem invariant_preserved (op : Op) (w : World) (hinv : BufferingInv w)
    (hadm : op.admissible w) :
    BufferingInv (step op w)
    ∧ (∀ (data : List Char) (wr : SysResult), data.length < SIZE_MOD →
        wr.okForWrite data.length → BufferingInv (sendInLoop data wr w))
    ∧ BufferingInv (shutdownInloop w)
    ∧ (w.conn.state_ ≠ StateE.kDisconnected →
        (w.conn.channel_.isWriting = false ↔ w.conn.outputBuffer_.bytes = [])) := by
  refine ⟨inv_step op w hinv hadm, ?_, inv_shutdownInloop w hinv, ?_⟩
  · intro data wr hlen hok
    exact inv_sendInLoop data wr w hinv hlen hok
  · intro hne
    constructor
    · intro hnow
      by_contra hb
      have := hinv.2.1 hne hb
      rw [hnow] at this
      exact absurd this (by decide)
    · intro hb
      by_contra hw
      exact hinv.1 (by simpa using hw) hb

/-- Witness of C18: the invariant holds with "llo" pending and still holds
after a write of 3 bytes has emptied the buffer. -/
theorem invariant_preserved_witness :
    BufferingInv (step (Op.handleWrite { ret := 3 })
      (step (Op.send true "hello".toList { ret := 2 })
        (step Op.connectEstablished (World.init true false 1024))))
    ∧ (step (Op.handleWrite { ret := 3 })
      (step (Op.send true "hello".toList { ret := 2 })
        (step Op.connectEstablished (World.init true false 1024)))).conn.channel_.isWriting
        = false :=
  ⟨(invariant_preserved (Op.handleWrite { ret := 3 })
      (step (Op.send true "hello".toList { ret := 2 })
        (step Op.connectEstablished (World.init true false 1024)))
      (reachable_inv _ reachable_hello_pending)
      (by show SysResult.okForWrite _ _; decide)).1,
   by decide⟩

/-! ## After the half-close -/

theorem reachableOS_reachable (w : World) (h : ReachableOS w) : Reachable w := by
  induction h with
  | init writeComplete highWater mark => exact Reachable.init writeComplete highWater mark
  | step op _ hadm _ ih => exact Reachable.step op ih hadm

theorem buffer_step_grows (data : List Char) (v : SendLocals) (w : World) :
    (∃ es, (sendInLoop.buffer data v w).trace = w.trace ++ es ∧ Effect.shutdownWrite ∉ es)
    ∧ (∃ q, (sendInLoop.buffer data v w).pendingFunctors_ = w.pendingFunctors_ ++ q
        ∧ PendingFunctor.shutdownInloop ∉ q) := by
  by_cases h : v.faultError = false ∧ 0 < v.remaining
  · rw [buffer_step_eq data v w h.1 h.2]
    dsimp only
    refine ⟨⟨_, rfl, ?_⟩, ⟨_, rfl, ?_⟩⟩
    · split_ifs <;> simp
    · split_ifs <;> simp
  · have hs : sendInLoop.buffer data v w = w := by
      apply buffer_step_skip
      by_cases hf : v.faultError = true
      · exact Or.inl hf
      · right
        have : v.faultError = false := by simpa using hf
        by_contra h0
        exact h ⟨this, Nat.pos_of_ne_zero h0⟩
    rw [hs]
    exact ⟨⟨[], by simp, by simp⟩, ⟨[], by simp, by simp⟩⟩

theorem directWrite_grows (data : List Char) (wr : SysResult) (w : World) :
    (∃ es, (sendInLoop.directWrite data wr w).2.trace = w.trace ++ es
        ∧ Effect.shutdownWrite ∉ es)
    ∧ (∃ q, (sendInLoop.directWrite data wr w).2.pendingFunctors_ = w.pendingFunctors_ ++ q
        ∧ PendingFunctor.shutdownInloop ∉ q) := by
  by_cases h : 0 ≤ wr.ret
  · rw [directWrite_ok data wr w h]
    dsimp only
    refine ⟨⟨_, rfl, by simp⟩, ⟨_, rfl, ?_⟩⟩
    split_ifs <;> simp
  · rw [directWrite_fail data wr w (by omega)]
    dsimp only
    refine ⟨⟨_, List.append_assoc _ _ _, ?_⟩, ⟨[], by simp, by simp⟩⟩
    split_ifs <;> simp

theorem sendInLoop_grows (data : List Char) (wr : SysResult) (w : World) :
    (∃ es, (sendInLoop data wr w).trace = w.trace ++ es ∧ Effect.shutdownWrite ∉ es)
    ∧ (∃ q, (sendInLoop data wr w).pendingFunctors_ = w.pendingFunctors_ ++ q
        ∧ PendingFunctor.shutdownInloop ∉ q) := by
  unfold sendInLoop
  dsimp only
  split_ifs
  · exact ⟨⟨[Effect.logError ErrorLine.giveUpWriting], rfl, by simp⟩, ⟨[], by simp [logError, World.emit], by simp⟩⟩
  · obtain ⟨⟨e1, he1, hn1⟩, ⟨q1, hq1, hm1⟩⟩ := directWrite_grows data wr w
    obtain ⟨⟨e2, he2, hn2⟩, ⟨q2, hq2, hm2⟩⟩ :=
      buffer_step_grows data (sendInLoop.directWrite data wr w).1
        (sendInLoop.directWrite data wr w).2
    refine ⟨⟨e1 ++ e2, ?_, ?_⟩, ⟨q1 ++ q2, ?_, ?_⟩⟩
    · rw [he2, he1, List.append_assoc]
    · simp [hn1, hn2]
    · rw [hq2, hq1, List.append_assoc]
    · simp [hm1, hm2]
  · exact buffer_step_grows data _ w

theorem hc_frame (w w1 : World) (hinv : HalfClosedInv w)
    (ht : halfClosed w1 → halfClosed w)
    (hs : w1.conn.state_ = w.conn.state_)
    (hw : w1.conn.channel_.isWriting = w.conn.channel_.isWriting)
    (hq : PendingFunctor.shutdownInloop ∈ w1.pendingFunctors_ →
      PendingFunctor.shutdownInloop ∈ w.pendingFunctors_) : HalfClosedInv w1 := by
  refine ⟨?_, ?_⟩
  · intro h
    rw [hs, hw]
    exact hinv.1 (ht h)
  · intro h
    rw [hs]
    exact hinv.2 (hq h)

theorem hc_closed (w1 : World) (hs : w1.conn.state_ = StateE.kDisconnected)
    (hw : w1.conn.channel_.isWriting = false) : HalfClosedInv w1 := by
  have h1 : w1.conn.state_ ≠ StateE.kConnecting := by
    rw [hs]; intro h; exact StateE.noConfusion h
  have h2 : w1.conn.state_ ≠ StateE.kConnected := by
    rw [hs]; intro h; exact StateE.noConfusion h
  exact ⟨fun _ => ⟨h1, h2, hw⟩, fun _ => ⟨h1, h2⟩⟩

theorem hc_disconnecting (w1 : World) (hs : w1.conn.state_ = StateE.kDisconnecting)
    (hw : halfClosed w1 → w1.conn.channel_.isWriting = false) : HalfClosedInv w1 := by
  have h1 : w1.conn.state_ ≠ StateE.kConnecting := by
    rw [hs]; intro h; exact StateE.noConfusion h
  have h2 : w1.conn.state_ ≠ StateE.kConnected := by
    rw [hs]; intro h; exact StateE.noConfusion h
  exact ⟨fun h => ⟨h1, h2, hw h⟩, fun _ => ⟨h1, h2⟩⟩

theorem hc_fresh (w w1 : World) (hinv : HalfClosedInv w)
    (hn : ¬ halfClosed w) (ht : halfClosed w1 → halfClosed w)
    (hq : PendingFunctor.shutdownInloop ∈ w1.pendingFunctors_ →
      PendingFunctor.shutdownInloop ∈ w.pendingFunctors_)
    (hs : w.conn.state_ ≠ StateE.kConnecting ∧ w.conn.state_ ≠ StateE.kConnected →
      w1.conn.state_ ≠ StateE.kConnecting ∧ w1.conn.state_ ≠ StateE.kConnected) :
    HalfClosedInv w1 :=
  ⟨fun h => absurd (ht h) hn, fun h => hs (hinv.2 (hq h))⟩

theorem halfClosed_append (w : World) (es : List Effect) (tr : List Effect)
    (h : tr = w.trace ++ es) (hn : Effect.shutdownWrite ∉ es) :
    Effect.shutdownWrite ∈ tr → halfClosed w := by
  intro hm
  rw [h] at hm
  rcases List.mem_append.mp hm with h1 | h1
  · exact h1
  · exact absurd h1 hn

theorem sendInLoop_half_closed (data : List Char) (w : World)
    (hb : BufferingInv w) (hinv : HalfClosedInv w) (hhc : halfClosed w) :
    sendInLoop data { ret := -1, errno := EPIPE } w =
      { conn := w.conn, pendingFunctors_ := w.pendingFunctors_,
        trace := w.trace ++
          (if w.conn.state_ = StateE.kDisconnected
           then [Effect.logError ErrorLine.giveUpWriting]
           else [Effect.sysWrite data (-1), Effect.logError ErrorLine.sendInLoop]) } := by
  obtain ⟨_, _, hnow⟩ := hinv.1 hhc
  by_cases hd : w.conn.state_ = StateE.kDisconnected
  · simp [sendInLoop, hd, logError, World.emit]
  · have hempty : w.conn.outputBuffer_.bytes = [] := by
      by_contra hne
      have := hb.2.1 hd hne
      rw [hnow] at this
      exact absurd this (by decide)
    rw [sendInLoop_fast data _ w hd hnow hempty, directWrite_fail data _ w (by decide)]
    dsimp only
    have hf : decide (EPIPE ≠ EWOULDBLOCK ∧ (EPIPE = EPIPE ∨ EPIPE = ECONNRESET)) = true := by
      decide
    rw [buffer_step_skip _ _ _ (Or.inl hf)]
    simp [hd, EPIPE, EWOULDBLOCK]

theorem hc_shutdownInloop (w : World) (hinv : HalfClosedInv w)
    (hs : w.conn.state_ ≠ StateE.kConnecting ∧ w.conn.state_ ≠ StateE.kConnected) :
    HalfClosedInv (shutdownInloop w) := by
  unfold shutdownInloop
  by_cases hw : w.conn.channel_.isWriting = true
  · simpa [hw] using hinv
  · have hnow : w.conn.channel_.isWriting = false := by simpa using hw
    simp only [hnow, Bool.not_false, if_true]
    exact ⟨fun _ => ⟨hs.1, hs.2, hnow⟩, fun _ => hs⟩

theorem hc_handleWrite (wr : SysResult) (w : World) (hinv : HalfClosedInv w) :
    HalfClosedInv (handleWrite wr w) := by
  by_cases hw : w.conn.channel_.isWriting = true
  · have hn : ¬ halfClosed w := by
      intro h
      have := (hinv.1 h).2.2
      rw [hw] at this
      exact absurd this (by decide)
    by_cases hret : 0 < wr.ret
    · by_cases hrest : w.conn.outputBuffer_.bytes.drop wr.ret.toNat = []
      · rw [handleWrite_drain wr w hw hret hrest]
        refine ⟨?_, ?_⟩
        · intro h
          dsimp only
          refine ⟨?_, ?_, isWriting_disable _ _⟩
          all_goals
            intro hs
            have hm : Effect.shutdownWrite ∈ w.trace
                ++ [Effect.sysWrite w.conn.outputBuffer_.bytes wr.ret,
                  Effect.updateChannel (w.conn.channel_.events_ &&& flagComplement kWriteEvent)]
                ++ (if w.conn.state_ = StateE.kDisconnecting then [Effect.shutdownWrite]
                    else []) := h
            have hne : w.conn.state_ ≠ StateE.kDisconnecting := by
              rw [hs]; intro hx; exact StateE.noConfusion hx
            rw [if_neg hne] at hm
            simp at hm
            exact hn hm
        · intro h
          dsimp only at h ⊢
          apply hinv.2
          split_ifs at h <;> simpa using h
      · rw [handleWrite_rest wr w hw hret hrest]
        refine hc_frame w _ hinv ?_ rfl rfl id
        intro h
        exact halfClosed_append w _ _ rfl (by simp) h
    · rw [handleWrite_fail wr w hw (by omega)]
      refine hc_frame w _ hinv ?_ rfl rfl id
      intro h
      exact halfClosed_append w _ _ rfl (by simp) h
  · rw [handleWrite_idle wr w (by simpa using hw)]
    refine hc_frame w _ hinv ?_ rfl rfl id
    intro h
    exact halfClosed_append w _ _ rfl (by simp) h

theorem hc_sendInLoop (data : List Char) (wr : SysResult) (w : World)
    (hb : BufferingInv w) (hinv : HalfClosedInv w)
    (hos : halfClosed w → wr.ret = -1 ∧ wr.errno = EPIPE) :
    HalfClosedInv (sendInLoop data wr w) := by
  by_cases hhc : halfClosed w
  · have hwr : wr = { ret := -1, errno := EPIPE } := by
      obtain ⟨h1, h2⟩ := hos hhc
      cases wr
      simp only at h1 h2
      rw [h1, h2]
    rw [hwr, sendInLoop_half_closed data w hb hinv hhc]
    exact hc_frame w _ hinv (fun _ => hhc) rfl rfl id
  · obtain ⟨⟨es, he, hn⟩, ⟨q, hq, hm⟩⟩ := sendInLoop_grows data wr w
    refine hc_fresh w _ hinv hhc (halfClosed_append w es _ he hn) ?_ ?_
    · intro h
      rw [hq] at h
      rcases List.mem_append.mp h with h1 | h1
      · exact h1
      · exact absurd h1 hm
    · rw [sendInLoop_state]
      exact id

theorem hc_step (op : Op) (w : World) (hb : BufferingInv w) (hinv : HalfClosedInv w)
    (hadm : op.admissible w) (hos : op.afterHalfClose w) : HalfClosedInv (step op w) := by
  cases op with
  | connectEstablished =>
    have hst : w.conn.state_ = StateE.kConnecting := hadm
    have hn : ¬ halfClosed w := fun h => (hinv.1 h).1 hst
    refine hc_fresh w _ hinv hn ?_ id ?_
    · intro h
      refine halfClosed_append w [Effect.updateChannel (w.conn.channel_.events_ ||| kReadEvent),
        Effect.connectionCallback StateE.kConnected] _ ?_ (by simp) h
      simp [step, connectEstablished, connectionCallback, Channel.enableReading, Channel.update,
        World.setEvents, World.emit, setState, Channel.tie]
    · intro h; exact absurd hst h.1
  | connectDestroyed =>
    simp only [step]
    by_cases hc : w.conn.state_ = StateE.kConnected
    · rw [connectDestroyed_connected w hc]
      exact hc_closed _ rfl (isWriting_none _)
    · rw [connectDestroyed_other w hc]
      refine hc_frame w _ hinv ?_ rfl rfl id
      intro h
      exact halfClosed_append w _ _ rfl (by simp) h
  | shutdown isInLoopThread =>
    simp only [step]
    by_cases hc : w.conn.state_ = StateE.kConnected
    · have hn : ¬ halfClosed w := fun h => (hinv.1 h).2.1 hc
      have h1 : HalfClosedInv (setState StateE.kDisconnecting w) := by
        apply hc_disconnecting _ rfl
        intro h
        exact absurd h hn
      cases isInLoopThread
      · have : shutdown false w = queueInLoop PendingFunctor.shutdownInloop
            (setState StateE.kDisconnecting w) := by
          simp [shutdown, hc, runInLoop]
        rw [this]
        apply hc_disconnecting _ rfl
        intro h
        exact absurd h hn
      · have : shutdown true w = shutdownInloop (setState StateE.kDisconnecting w) := by
          simp [shutdown, hc, runInLoop]
        rw [this]
        refine hc_shutdownInloop _ h1 ⟨?_, ?_⟩ <;>
        · intro h; exact StateE.noConfusion h
    · have : shutdown isInLoopThread w = w := by simp [shutdown, hc]
      rw [this]; exact hinv
  | send isInLoopThread buf wr =>
    simp only [step]
    by_cases hc : w.conn.state_ = StateE.kConnected
    · cases isInLoopThread
      · have : send false buf wr w = queueInLoop (PendingFunctor.sendInLoop buf.length) w := by
          simp [send, hc, runInLoop]
        rw [this]
        refine hc_frame w _ hinv id rfl rfl ?_
        intro h
        simpa [queueInLoop] using h
      · rw [send_inLoop w buf wr hc]
        exact hc_sendInLoop buf wr w hb hinv (fun h => hos h wr rfl)
    · have : send isInLoopThread buf wr w = w := by simp [send, hc]
      rw [this]; exact hinv
  | haneleRead rd so receiveTime =>
    simp only [step, haneleRead]
    split_ifs
    · refine hc_frame w _ hinv ?_ rfl rfl id
      intro h
      exact halfClosed_append w [Effect.messageCallback (w.conn.inputBuffer_.readFd rd).bytes
        receiveTime] _ rfl (by simp) h
    · rw [handleClose_eq]
      exact hc_closed _ rfl (isWriting_none _)
    · refine hc_frame w _ hinv ?_ rfl rfl id
      intro h
      refine halfClosed_append w [Effect.logError ErrorLine.handleRead,
        Effect.logError (ErrorLine.handleError (if so.ret < 0 then so.errno else so.optval))]
        _ ?_ (by simp) h
      simp [handleError, logError, World.emit]
  | handleWrite wr => exact hc_handleWrite wr w hinv
  | handleClose =>
    simp only [step]
    rw [handleClose_eq]
    exact hc_closed _ rfl (isWriting_none _)
  | handleError so =>
    refine hc_frame w _ hinv ?_ rfl rfl id
    intro h
    exact halfClosed_append w [Effect.logError (ErrorLine.handleError
      (if so.ret < 0 then so.errno else so.optval))] _ rfl (by simp) h
  | doPendingFunctor wr mem =>
    simp only [step, doPendingFunctor]
    cases hq : w.pendingFunctors_ with
    | nil => exact hinv
    | cons f rest =>
      have hb0 : BufferingInv { w with pendingFunctors_ := rest } := by
        refine inv_frame w _ hb ?_ ?_ ?_ ?_
        · rfl
        · rfl
        · exact id
        · intro d hd
          left
          rw [hq]
          exact List.mem_cons_of_mem _ hd
      have h0 : HalfClosedInv { w with pendingFunctors_ := rest } := by
        refine hc_frame w _ hinv id rfl rfl ?_
        intro h
        rw [hq]
        exact List.mem_cons_of_mem _ h
      cases f with
      | sendInLoop len =>
        exact hc_sendInLoop (mem.take len) wr _ hb0 h0 (fun h => hos h wr rfl)
      | shutdownInloop =>
        apply hc_shutdownInloop _ h0
        apply hinv.2
        rw [hq]
        exact List.mem_cons_self _ _
      | writeCompleteCallback =>
        refine hc_frame _ _ h0 ?_ rfl rfl id
        intro h
        exact halfClosed_append _ [Effect.writeCompleteCallback] _ rfl (by simp) h
      | highWaterMarkCallback len =>
        refine hc_frame _ _ h0 ?_ rfl rfl id
        intro h
        exact halfClosed_append _ [Effect.highWaterMarkCallback len] _ rfl (by simp) h

theorem reachableOS_hc (w : World) (h : ReachableOS w) : HalfClosedInv w := by
  induction h with
  | init writeComplete highWater mark =>
    refine ⟨fun h => ?_, fun h => ?_⟩
    · exact absurd h (by simp [halfClosed, World.init])
    · exact absurd h (by simp [World.init])
  | step op hr hadm hos ih =>
    exact hc_step op _ (reachable_inv _ (reachableOS_reachable _ hr)) ih hadm hos

theorem quiet_of_trace (w w1 : World) (es : List Effect) (n : Nat)
    (ht : w1.trace = w.trace ++ es) (ha : acceptedBytes es = [])
    (hc : countEffect Effect.shutdownWrite es = n)
    (hbuf : w1.conn.outputBuffer_ = w.conn.outputBuffer_) :
    acceptedBytes w1.trace = acceptedBytes w.trace
    ∧ w1.conn.outputBuffer_ = w.conn.outputBuffer_
    ∧ countEffect Effect.shutdownWrite w1.trace
        = countEffect Effect.shutdownWrite w.trace + n := by
  refine ⟨?_, hbuf, ?_⟩
  · rw [ht, acceptedBytes_append, ha, List.append_nil]
  · rw [ht, count_append_fresh, hc]

/-- C19, as stated, fails: with "llo" pending, `shutdown()` is called from
another thread (state Disconnecting, decision queued); the next `handleWrite`
writes the 3 bytes, empties the buffer and half-closes; the loop then runs the
queued `shutdownInloop`, which finds no writable interest and performs
`shutdownWrite` a second time. Every write of this run precedes the first
half-close, and the run is one the operations can produce. -/
theorem half_close_counterexample :
    ReachableOS (step (Op.doPendingFunctor { ret := -1, errno := EPIPE } [])
      (step (Op.handleWrite { ret := 3 })
        (step (Op.shutdown false)
          (step (Op.send true "hello".toList { ret := 2 })
            (step Op.connectEstablished (World.init false false 1024))))))
    ∧ countEffect Effect.shutdownWrite
        (step (Op.handleWrite { ret := 3 })
          (step (Op.shutdown false)
            (step (Op.send true "hello".toList { ret := 2 })
              (step Op.connectEstablished (World.init false false 1024))))).trace = 1
    ∧ countEffect Effect.shutdownWrite
        (step (Op.doPendingFunctor { ret := -1, errno := EPIPE } [])
          (step (Op.handleWrite { ret := 3 })
            (step (Op.shutdown false)
              (step (Op.send true "hello".toList { ret := 2 })
                (step Op.connectEstablished (World.init false false 1024)))))).trace = 2 := by
  refine ⟨?_, by decide, by decide⟩
  refine ReachableOS.step _ (ReachableOS.step _ (ReachableOS.step _ (ReachableOS.step _
    (ReachableOS.step _ (ReachableOS.init false false 1024) ?_ ?_) ?_ ?_) ?_ ?_) ?_ ?_) ?_ ?_
  · show _ = _; rfl
  · intro h; exact absurd h (by decide)
  · show _ ∧ _
    exact ⟨by unfold SIZE_MOD; decide, by decide⟩
  · intro h; exact absurd h (by decide)
  · show True; trivial
  · intro h; exact absurd h (by decide)
  · show SysResult.okForWrite _ _
    decide
  · intro h; exact absurd h (by decide)
  · show True; trivial
  · intro _ wr hwr
    have : wr = { ret := -1, errno := EPIPE } := by
      injection hwr with h; exact h.symm
    rw [this]
    exact ⟨rfl, rfl⟩

/-- C19, amended. Once the write side of the socket has been half-closed, and
given that the descriptor from then on fails every write with `EPIPE`, no
later operation (`connectDestroyed`, `shutdown`, `send`, `haneleRead`,
`handleWrite`, `handleClose`, `handleError`, a queued task run by the loop)
gets any byte accepted by the descriptor or changes the outbound buffer; a
direct `send` or `shutdown` does nothing at all and `handleWrite` only logs.
`shutdownWrite` is performed again exactly when the loop runs a
`shutdownInloop` task, which a `shutdown()` from another thread had queued
before the half-close, and by no other operation. This holds on every
connection that the operations can produce. -/
theorem after_half_close (op : Op) (w : World) (hreach : ReachableOS w)
    (hadm : op.admissible w) (hos : op.afterHalfClose w) (hhc : halfClosed w) :
    acceptedBytes (step op w).trace = acceptedBytes w.trace
    ∧ (step op w).conn.outputBuffer_ = w.conn.outputBuffer_
    ∧ countEffect Effect.shutdownWrite (step op w).trace
        = countEffect Effect.shutdownWrite w.trace
          + (if op.runsShutdownTask w = true then 1 else 0)
    ∧ (∀ (isInLoopThread : Bool) (buf : List Char) (wr : SysResult),
        send isInLoopThread buf wr w = w)
    ∧ (∀ isInLoopThread : Bool, shutdown isInLoopThread w = w)
    ∧ (∀ wr : SysResult, handleWrite wr w =
        { conn := w.conn, pendingFunctors_ := w.pendingFunctors_,
          trace := w.trace ++ [Effect.logError ErrorLine.noMoreWriting] }) := by
  have hb := reachable_inv w (reachableOS_reachable w hreach)
  have hinv := reachableOS_hc w hreach
  obtain ⟨hnc, hncd, hnow⟩ := hinv.1 hhc
  have hsend : ∀ (isInLoopThread : Bool) (buf : List Char) (wr : SysResult),
      send isInLoopThread buf wr w = w := by
    intro isInLoopThread buf wr
    simp [send, hncd]
  have hshut : ∀ isInLoopThread : Bool, shutdown isInLoopThread w = w := by
    intro isInLoopThread
    simp [shutdown, hncd]
  suffices hmain : (acceptedBytes (step op w).trace = acceptedBytes w.trace
        ∧ (step op w).conn.outputBuffer_ = w.conn.outputBuffer_)
      ∧ countEffect Effect.shutdownWrite (step op w).trace
          = countEffect Effect.shutdownWrite w.trace
            + (if op.runsShutdownTask w = true then 1 else 0) from
    ⟨hmain.1.1, hmain.1.2, hmain.2, hsend, hshut, fun wr => handleWrite_idle wr w hnow⟩
  have hgoal : ∀ (es : List Effect) (w1 : World) (n : Nat),
      w1.trace = w.trace ++ es → acceptedBytes es = [] →
      countEffect Effect.shutdownWrite es = n →
      w1.conn.outputBuffer_ = w.conn.outputBuffer_ →
      (acceptedBytes w1.trace = acceptedBytes w.trace
        ∧ w1.conn.outputBuffer_ = w.conn.outputBuffer_)
      ∧ countEffect Effect.shutdownWrite w1.trace
          = countEffect Effect.shutdownWrite w.trace + n := by
    intro es w1 n ht ha hc hbuf
    have := quiet_of_trace w w1 es n ht ha hc hbuf
    exact ⟨⟨this.1, this.2.1⟩, this.2.2⟩
  cases op with
  | connectEstablished => exact absurd hadm hnc
  | connectDestroyed =>
    simp only [step, Op.runsShutdownTask, Bool.false_eq_true, if_false]
    rw [connectDestroyed_other w hncd]
    exact hgoal [Effect.removeChannel] _ 0 rfl rfl rfl rfl
  | shutdown isInLoopThread =>
    simp only [step, Op.runsShutdownTask, Bool.false_eq_true, if_false]
    rw [hshut]
    exact hgoal [] _ 0 (by simp) rfl rfl rfl
  | send isInLoopThread buf wr =>
    simp only [step, Op.runsShutdownTask, Bool.false_eq_true, if_false]
    rw [hsend]
    exact hgoal [] _ 0 (by simp) rfl rfl rfl
  | haneleRead rd so receiveTime =>
    simp only [step, Op.runsShutdownTask, Bool.false_eq_true, if_false, haneleRead]
    split_ifs
    · exact hgoal [Effect.messageCallback (w.conn.inputBuffer_.readFd rd).bytes receiveTime]
        _ 0 rfl rfl rfl rfl
    · rw [handleClose_eq]
      exact hgoal [Effect.updateChannel kNoneEvent,
        Effect.connectionCallback StateE.kDisconnected, Effect.closeCallback] _ 0 rfl rfl rfl rfl
    · refine hgoal [Effect.logError ErrorLine.handleRead,
        Effect.logError (ErrorLine.handleError (if so.ret < 0 then so.errno else so.optval))]
        _ 0 ?_ rfl rfl rfl
      simp [handleError, logError, World.emit]
  | handleWrite wr =>
    simp only [step, Op.runsShutdownTask, Bool.false_eq_true, if_false]
    rw [handleWrite_idle wr w hnow]
    exact hgoal [Effect.logError ErrorLine.noMoreWriting] _ 0 rfl rfl rfl rfl
  | handleClose =>
    simp only [step, Op.runsShutdownTask, Bool.false_eq_true, if_false]
    rw [handleClose_eq]
    exact hgoal [Effect.updateChannel kNoneEvent,
      Effect.connectionCallback StateE.kDisconnected, Effect.closeCallback] _ 0 rfl rfl rfl rfl
  | handleError so =>
    simp only [step, Op.runsShutdownTask, Bool.false_eq_true, if_false]
    exact hgoal [Effect.logError (ErrorLine.handleError
      (if so.ret < 0 then so.errno else so.optval))] _ 0 rfl rfl rfl rfl
  | doPendingFunctor wr mem =>
    have hwr : wr = { ret := -1, errno := EPIPE } := by
      obtain ⟨h1, h2⟩ := hos hhc wr rfl
      cases wr
      simp only at h1 h2
      rw [h1, h2]
    have hcases : w.pendingFunctors_ = [] ∨ ∃ f rest, w.pendingFunctors_ = f :: rest := by
      cases w.pendingFunctors_ with
      | nil => exact Or.inl rfl
      | cons f rest => exact Or.inr ⟨f, rest, rfl⟩
    rcases hcases with hq | ⟨f, rest, hq⟩
    · have hstep : step (Op.doPendingFunctor wr mem) w = w := by
        simp [step, doPendingFunctor, hq]
      have hr : (Op.doPendingFunctor wr mem).runsShutdownTask w = false := by
        simp [Op.runsShutdownTask, hq]
      rw [hstep, hr]
      exact hgoal [] w 0 (by simp) rfl rfl rfl
    · have hb0 : BufferingInv { w with pendingFunctors_ := rest } := by
        refine inv_frame w _ hb ?_ ?_ ?_ ?_
        · rfl
        · rfl
        · exact id
        · intro d hd
          left
          rw [hq]
          exact List.mem_cons_of_mem _ hd
      have h0 : HalfClosedInv { w with pendingFunctors_ := rest } := by
        refine hc_frame w _ hinv id rfl rfl ?_
        intro h
        rw [hq]
        exact List.mem_cons_of_mem _ h
      have hstep : step (Op.doPendingFunctor wr mem) w
          = runFunctor f wr mem { w with pendingFunctors_ := rest } := by
        simp [step, doPendingFunctor, hq]
      rw [hstep]
      cases f with
      | sendInLoop len =>
        have hr : (Op.doPendingFunctor wr mem).runsShutdownTask w = false := by
          simp [Op.runsShutdownTask, hq]
        have hrun : runFunctor (PendingFunctor.sendInLoop len) wr mem
              { w with pendingFunctors_ := rest }
            = { conn := w.conn, pendingFunctors_ := rest,
                trace := w.trace ++
                  (if w.conn.state_ = StateE.kDisconnected
                   then [Effect.logError ErrorLine.giveUpWriting]
                   else [Effect.sysWrite (mem.take len) (-1),
                     Effect.logError ErrorLine.sendInLoop]) } := by
          simp only [runFunctor]
          rw [hwr, sendInLoop_half_closed (mem.take len) _ hb0 h0 hhc]
        rw [hrun, hr]
        refine hgoal (if w.conn.state_ = StateE.kDisconnected
            then [Effect.logError ErrorLine.giveUpWriting]
            else [Effect.sysWrite (mem.take len) (-1), Effect.logError ErrorLine.sendInLoop])
          _ 0 rfl ?_ ?_ rfl
        · split_ifs <;> simp [acceptedBytes, Effect.accepted]
        · split_ifs <;> simp [countEffect]
      | shutdownInloop =>
        have hr : (Op.doPendingFunctor wr mem).runsShutdownTask w = true := by
          simp [Op.runsShutdownTask, hq]
        have hrun : runFunctor PendingFunctor.shutdownInloop wr mem
              { w with pendingFunctors_ := rest }
            = { conn := w.conn, pendingFunctors_ := rest,
                trace := w.trace ++ [Effect.shutdownWrite] } := by
          simp [runFunctor, shutdownInloop, hnow, Socket.shutdownWrite, World.emit]
        rw [hrun, hr]
        exact hgoal [Effect.shutdownWrite] _ 1 rfl rfl (by simp [countEffect]) rfl
      | writeCompleteCallback =>
        have hr : (Op.doPendingFunctor wr mem).runsShutdownTask w = false := by
          simp [Op.runsShutdownTask, hq]
        rw [hr]
        exact hgoal [Effect.writeCompleteCallback] _ 0 rfl rfl rfl rfl
      | highWaterMarkCallback len =>
        have hr : (Op.doPendingFunctor wr mem).runsShutdownTask w = false := by
          simp [Op.runsShutdownTask, hq]
        rw [hr]
        exact hgoal [Effect.highWaterMarkCallback len] _ 0 rfl rfl rfl rfl

theorem reachableOS_late_send :
    ReachableOS (step (Op.shutdown true)
      (step (Op.send false "late".toList { ret := 4 })
        (step Op.connectEstablished (World.init false false 1024)))) := by
  refine ReachableOS.step _ (ReachableOS.step _ (ReachableOS.step _
    (ReachableOS.init false false 1024) ?_ ?_) ?_ ?_) ?_ ?_
  · show _ = _; rfl
  · intro h; exact absurd h (by decide)
  · show _ ∧ _
    exact ⟨by unfold SIZE_MOD; decide, by decide⟩
  · intro h; exact absurd h (by decide)
  · show True; trivial
  · intro h; exact absurd h (by decide)

/-- Witness of C19, amended: `send("late")` from another thread is queued,
`shutdown()` on the loop thread half-closes at once, and the queued send then
runs against a descriptor that answers `EPIPE`: nothing is accepted, nothing
is buffered, and the half-close has still been made once. -/
theorem after_half_close_witness :
    halfClosed (step (Op.shutdown true)
      (step (Op.send false "late".toList { ret := 4 })
        (step Op.connectEstablished (World.init false false 1024))))
    ∧ acceptedBytes (step (Op.doPendingFunctor { ret := -1, errno := EPIPE } "late".toList)
        (step (Op.shutdown true)
          (step (Op.send false "late".toList { ret := 4 })
            (step Op.connectEstablished (World.init false false 1024))))).trace = []
    ∧ (step (Op.doPendingFunctor { ret := -1, errno := EPIPE } "late".toList)
        (step (Op.shutdown true)
          (step (Op.send false "late".toList { ret := 4 })
            (step Op.connectEstablished
              (World.init false false 1024))))).conn.outputBuffer_.bytes = []
    ∧ countEffect Effect.shutdownWrite
        (step (Op.doPendingFunctor { ret := -1, errno := EPIPE } "late".toList)
          (step (Op.shutdown true)
            (step (Op.send false "late".toList { ret := 4 })
              (step Op.connectEstablished (World.init false false 1024))))).trace = 1 :=
  have h := after_half_close (Op.doPendingFunctor { ret := -1, errno := EPIPE } "late".toList)
    (step (Op.shutdown true)
      (step (Op.send false "late".toList { ret := 4 })
        (step Op.connectEstablished (World.init false false 1024))))
    reachableOS_late_send
    (by show _ ∧ _; exact ⟨by decide, by decide⟩)
    (fun _ wr hwr => by
      have : wr = { ret := -1, errno := EPIPE } := by
        injection hwr with h; exact h.symm
      rw [this]
      exact ⟨rfl, rfl⟩)
    (by decide)
  ⟨by decide, h.1.trans (by decide), (congrArg Buffer.bytes h.2.1).trans (by decide),
   h.2.2.1.trans (by decide)⟩

end mymuduo
